import Mathlib

/-!
Verification development for the vkma VulkanHppGenerator (a fork of the
vulkan.hpp code generator).  The definitions below are a shallow embedding of
the generator's string utilities, registry data model, parameter classifier,
overload selector and emission templates, translated from
`src/VulkanHppGenerator.cpp`.  Compile-time constants are instantiated with
their defaults (COMMAND_PREFIX = "vk", STRUCT_PREFIX = "Vk",
MACRO_PREFIX = "VK", HEADER_MACRO = "VULKAN_HPP", NEEDS_DISPATCH and
NEEDS_STRUCTURE_CHAIN enabled), matching the values set at the top of the
source file.  Theorems about these definitions follow after all definitions.
-/

set_option maxRecDepth 8000

namespace VkGen

/-! ## Lexical utilities (VulkanHppGenerator.cpp, free functions) -/

/-- Characters treated as whitespace by `std::isspace` in the "C" locale,
used by `trim` / `trimEnd` (lines 722-738). -/
def isSpaceChar (c : Char) : Bool :=
  c = ' ' || c = '\t' || c = '\n' || c = '\x0b' || c = '\x0c' || c = '\r'

/-- `trim` (line 722): drop leading and trailing whitespace. -/
def trim (s : String) : String :=
  ⟨((s.data.dropWhile isSpaceChar).reverse.dropWhile isSpaceChar).reverse⟩

/-- `trimEnd` (line 732): drop trailing whitespace. -/
def trimEnd (s : String) : String :=
  ⟨(s.data.reverse.dropWhile isSpaceChar).reverse⟩

/-- Loop body of `trimStars` (lines 740-758).  The C++ code scans `result`
left to right for each `'*'` (via `find`): if the preceding character exists
and is neither a space nor a star, a space is inserted before the star (and
the scan continues after the star); otherwise, if a following character
exists and is neither a space nor a star, a space is inserted after the star.
`left` holds the already-processed output in reverse; `right` is the
unprocessed remainder. -/
def trimStarsGo : List Char → List Char → List Char
  | left, [] => left.reverse
  | left, c :: rest =>
    if c = '*' then
      if left ≠ [] ∧ left.headD ' ' ≠ ' ' ∧ left.headD ' ' ≠ '*' then
        trimStarsGo ('*' :: ' ' :: left) rest
      else if rest ≠ [] ∧ rest.headD ' ' ≠ ' ' ∧ rest.headD ' ' ≠ '*' then
        trimStarsGo (' ' :: '*' :: left) rest
      else trimStarsGo ('*' :: left) rest
    else trimStarsGo (c :: left) rest

/-- `trimStars` (line 740). -/
def trimStars (s : String) : String :=
  ⟨trimStarsGo [] s.data⟩

/-- `readTypePostfix` (lines 519-527): the text node after a `<type>` element
is trimmed at its end and its stars are normalized.  (The XML node plumbing
is dropped; absence of a text node yields the empty string, which the
composition also maps to the empty string.) -/
def readTypePost (s : String) : String :=
  trimStars (trimEnd s)

/-- `beginsWith` (line 84 / 183): prefix test on strings. -/
def beginsWith (text pre : String) : Bool :=
  pre.data.isPrefixOf text.data

/-- `startLowerCase` (line 591). -/
def startLowerCase (s : String) : String :=
  match s.data with
  | [] => ""
  | c :: cs => ⟨Char.toLower c :: cs⟩

/-- `stripPrefix` (line 629): drop `pre` from the front of `v` when present. -/
def stripPre (v pre : String) : String :=
  if beginsWith v pre then ⟨v.data.drop pre.data.length⟩ else v

/-- Fuel-driven split of a character list at every leftmost, non-overlapping
occurrence of `sep` (the `find` loop of `tokenize`); `acc` is the current
piece reversed.  Fuel `l.length + 1` always suffices. -/
def splitTokFuel : Nat → List Char → List Char → List Char → List (List Char)
  | 0, l, acc, _ => [acc.reverse ++ l]
  | fuel + 1, l, acc, sep =>
    match l with
    | [] => [acc.reverse]
    | c :: cs =>
      if sep ≠ [] ∧ sep.isPrefixOf (c :: cs) then
        acc.reverse :: splitTokFuel fuel ((c :: cs).drop sep.length) [] sep
      else splitTokFuel fuel cs (c :: acc) sep

/-- `tokenize` (lines 706-720).  The C++ loop splits on each leftmost
occurrence of `separator`; a piece is pushed (after `trim`) whenever
`start != end`, which skips empty pieces before a separator but always
pushes the final piece (`end == npos` and `start ≤ size`), even when that
final piece is empty. -/
def tokenize (s sep : String) : List String :=
  let ps := splitTokFuel (s.data.length + 1) s.data [] sep.data
  ((ps.dropLast.filter (fun t => t ≠ [])) ++ [ps.getLastD []]).map (fun t => trim ⟨t⟩)

/-- Decidable equality of `Except` results, used to state concrete outcomes. -/
instance {e a : Type} [DecidableEq e] [DecidableEq a] : DecidableEq (Except e a) := fun x y =>
  match x, y with
  | .ok v, .ok w => if h : v = w then .isTrue (by rw [h]) else .isFalse (by simp [h])
  | .error v, .error w => if h : v = w then .isTrue (by rw [h]) else .isFalse (by simp [h])
  | .ok _, .error _ => .isFalse (by simp)
  | .error _, .ok _ => .isFalse (by simp)

/-- Substring test, used to state properties of emitted text. -/
def containsStr (s pat : String) : Bool :=
  decide (pat.data <:+: s.data)

/-! ## Template substitution: `replaceWithMap` (lines 539-589)

The C++ function iterates the regex `\$\{([^\}]+)\}` over the input: each
match `${name}` is replaced by the mapped value of `name` (release builds
leave the token in place when the name is missing; debug builds assert).
The functions below model that scan on `List Char`: at `"${"` the characters
up to the first `'}'` form the candidate name; a nonempty name is a match,
otherwise the scan resumes one character further, exactly as the regex
engine does. -/

/-- Split a character list at its first `'}'`: returns the characters before
it and the remainder after it. -/
def splitBrace : List Char → Option (List Char × List Char)
  | [] => none
  | c :: cs =>
    if c = '}' then some ([], cs)
    else match splitBrace cs with
         | some (a, b) => some (c :: a, b)
         | none => none

/-- Lookup in the replacement map (`std::map::find` on the name). -/
def lookupStr (m : List (List Char × List Char)) (k : List Char) : Option (List Char) :=
  match m with
  | [] => none
  | kv :: rest => if kv.1 = k then some kv.2 else lookupStr rest k

/-- `replaceWithMap` (lines 539-589), release (`NDEBUG`) semantics: each
placeholder `${name}` with nonempty brace-free `name` is replaced by the
mapped value when present and left verbatim otherwise; all other characters
pass through. -/
def replaceWithMap (m : List (List Char × List Char)) : List Char → List Char
  | [] => []
  | '$' :: '{' :: rest =>
    match hsb : splitBrace rest with
    | some (nm, rest') =>
      if nm = [] then '$' :: replaceWithMap m ('{' :: rest)
      else ((lookupStr m nm).getD ('$' :: '{' :: (nm ++ [ '}' ]))) ++ replaceWithMap m rest'
    | none => '$' :: replaceWithMap m ('{' :: rest)
  | c :: cs => c :: replaceWithMap m cs
termination_by l => l.length
decreasing_by
  · simp
  · have key : ∀ l (a b : List Char), splitBrace l = some (a, b) → b.length < l.length := by
      intro l
      induction l with
      | nil => intro a b h; simp [splitBrace] at h
      | cons c cs ih =>
        intro a b h
        by_cases hc : c = '}'
        · simp [splitBrace, hc] at h
          obtain ⟨h1, h2⟩ := h
          subst h2
          simp
        · rw [splitBrace] at h
          simp only [if_neg hc] at h
          cases hsb2 : splitBrace cs with
          | none => rw [hsb2] at h; simp at h
          | some p =>
            rw [hsb2] at h
            obtain ⟨a2, b2⟩ := p
            simp at h
            have := ih a2 b2 hsb2
            calc b.length = b2.length := by rw [h.2]
            _ < cs.length := this
            _ < (c :: cs).length := by simp
    have := key rest nm rest' hsb
    simp
    omega
  · simp
  · simp

/-- The sequence of placeholder names matched by the regex scan of
`replaceWithMap`, in order (models the `sregex_iterator` walk, used for the
debug assertions of lines 553-586). -/
def phNames : List Char → List (List Char)
  | [] => []
  | '$' :: '{' :: rest =>
    match hsb : splitBrace rest with
    | some (nm, rest') => if nm = [] then phNames ('{' :: rest) else nm :: phNames rest'
    | none => phNames ('{' :: rest)
  | _ :: cs => phNames cs
termination_by l => l.length
decreasing_by
  · simp
  · have key : ∀ l (a b : List Char), splitBrace l = some (a, b) → b.length < l.length := by
      intro l
      induction l with
      | nil => intro a b h; simp [splitBrace] at h
      | cons c cs ih =>
        intro a b h
        by_cases hc : c = '}'
        · simp [splitBrace, hc] at h
          obtain ⟨h1, h2⟩ := h
          subst h2
          simp
        · rw [splitBrace] at h
          simp only [if_neg hc] at h
          cases hsb2 : splitBrace cs with
          | none => rw [hsb2] at h; simp at h
          | some p =>
            rw [hsb2] at h
            obtain ⟨a2, b2⟩ := p
            simp at h
            have := ih a2 b2 hsb2
            calc b.length = b2.length := by rw [h.2]
            _ < cs.length := this
            _ < (c :: cs).length := by simp
    have := key rest nm rest' hsb
    simp
    omega
  · simp
  · simp

/-- A character list contains a `${...}` token: somewhere a `'$'` is followed
by `'{'`, a nonempty brace-free name, and a closing `'}'` (the language of
the regex `\$\{([^\}]+)\}`). -/
def containsToken (l : List Char) : Prop :=
  ∃ p nm s, l = p ++ '$' :: '{' :: (nm ++ '}' :: s) ∧ nm ≠ [] ∧ '}' ∉ nm

/-! ## Registry data model (the parts the claims need)

`TypeInfo`, `ParamData`, `CommandData` are declared in the generator's header
(not part of `src/`); their fields are those listed in the spec's data model
and used throughout `VulkanHppGenerator.cpp`. -/

/-- Modelled from the spec: `TypeInfo` is `{prefix, type, postfix}` where the
prefix text precedes the `<type>` element and the postfix text (with stars
normalized) follows it.  The header declaring the struct is not in `src/`. -/
structure TypeInfo where
  pre : String := ""
  type : String := ""
  post : String := ""
deriving DecidableEq, Repr, Inhabited

/-- Modelled from the spec: `isValue ⇔ postfix == ""` (the header defining
this accessor is not in `src/`). -/
def TypeInfo.isValue (t : TypeInfo) : Bool :=
  t.post == ""

/-- Modelled from the spec: `isConstPointer ⇔ prefix contains "const" ∧
postfix ends "*"` (the header defining this accessor is not in `src/`). -/
def TypeInfo.isConstPointer (t : TypeInfo) : Bool :=
  decide ("const".data <:+: t.pre.data) && "*".data.isSuffixOf t.post.data

/-- Modelled from the spec: a non-const pointer is a pointer (postfix ends
"*") whose prefix does not contain "const" (header not in `src/`). -/
def TypeInfo.isNonConstPointer (t : TypeInfo) : Bool :=
  !(decide ("const".data <:+: t.pre.data)) && "*".data.isSuffixOf t.post.data

/-- Modelled from the spec: `ParamData` is `{type, name, arraySizes, len,
optional, xmlLine}` (header not in `src/`). -/
structure ParamData where
  type : TypeInfo := {}
  name : String := ""
  arraySizes : List String := []
  len : String := ""
  optional : Bool := false
  xmlLine : Nat := 0
deriving DecidableEq, Repr, Inhabited

/-- Modelled from the spec: the per-alias data of a command (`aliasData` maps
an alias name to its feature, extension set and xml line; header not in
`src/`). -/
structure AliasInfo where
  feature : String := ""
  extensions : List String := []
  xmlLine : Nat := 0
deriving DecidableEq, Repr, Inhabited

/-- Modelled from the spec: `CommandData` (header not in `src/`).  The alias
table is kept as an association list in map (name) order. -/
structure CommandData where
  returnType : String := ""
  successCodes : List String := []
  errorCodes : List String := []
  params : List ParamData := []
  handle : String := ""
  feature : String := ""
  extensions : List String := []
  aliasData : List (String × AliasInfo) := []
  xmlLine : Nat := 0
deriving DecidableEq, Repr, Inhabited

/-- The generator state consulted by the overload selector: the handles map
(name and `HandleData::alias`), the structures map (name and its alias set)
and `m_extendedStructs` (names of structs that extend a pNext chain). -/
structure Generator where
  handles : List (String × String) := []
  structures : List (String × List String) := []
  extendedStructs : List String := []
deriving DecidableEq, Repr, Inhabited

/-- Modelled from the spec: the "invalid" sentinel index `INVALID_INDEX`
(declared in the header, not in `src/`; its value is `~0` as `size_t`). -/
def INVALID_INDEX : Nat := 2 ^ 64 - 1

/-- `specialPointerTypes` (line 132). -/
def specialPointerTypes : List String :=
  ["Display", "IDirectFB", "wl_display", "xcb_connection_t"]

/-! ## Parameter classifier -/

/-- `isLenByStructMember(name, param)` (lines 7574-7596), release semantics:
the `len` text is tokenized at `"->"` (or, failing that, at `"::"` for older
registries) and the first token must equal the parameter's name.  The debug
build additionally asserts that the parameter's type is a known struct
containing the named member; release builds do not check this. -/
def isLenByStructMember (name : String) (param : ParamData) : Bool :=
  let parts0 := tokenize name "->"
  let parts := if parts0.length == 1 then tokenize name "::" else parts0
  parts.length == 2 && (parts.headD "") == param.name

/-- The predicate of the `find_if` in `determineVectorParamIndicesNew`
(lines 7222-7224): an earlier parameter matches when its name equals the
`len` text or when the `len` text is a struct-member path through it. -/
def lenMatches (len : String) (pd : ParamData) : Bool :=
  pd.name == len || isLenByStructMember len pd

/-- Index of the first element satisfying `pred` (models `std::find_if` over
a parameter range). -/
def firstMatch (pred : ParamData → Bool) : List ParamData → Option Nat
  | [] => none
  | p :: ps => if pred p then some 0 else (firstMatch pred ps).map (· + 1)

/-- `determineVectorParamIndicesNew` (lines 7212-7235): for each parameter
with a nonempty `len`, search the strictly earlier parameters for one whose
name matches the `len` (directly or as a struct-member path); on success the
pair (parameter index, index of the matching earlier parameter) is inserted.
The `std::map` is modeled as the association list in ascending key order. -/
def determineVectorParamIndicesNew (params : List ParamData) : List (Nat × Nat) :=
  (List.range params.length).filterMap fun i =>
    let p := params.getD i default
    if p.len = "" then none
    else match firstMatch (fun pd => lenMatches p.len pd) (params.take i) with
         | some j => some (i, j)
         | none => none

/-- `determineNonConstPointerParamIndices` (lines 7194-7210). -/
def determineNonConstPointerParamIndices (params : List ParamData) : List Nat :=
  (List.range params.length).filter fun i =>
    let p := params.getD i default
    p.type.isNonConstPointer && !(specialPointerTypes.contains p.type.type)

/-- `determineConstPointerParamIndices` (lines 7177-7192). -/
def determineConstPointerParamIndices (params : List ParamData) : List Nat :=
  (List.range params.length).filter fun i =>
    let p := params.getD i default
    p.type.isConstPointer || (p.type.isNonConstPointer && specialPointerTypes.contains p.type.type)

/-- `isHandleType` (lines 7529-7543): a `Vk`-prefixed type that is a key of
the handles map or the alias of some handle. -/
def isHandleType (g : Generator) (type : String) : Bool :=
  beginsWith type "Vk" &&
    (g.handles.any (fun h => h.1 == type) || g.handles.any (fun h => h.2 == type))

/-- `isStructureChainAnchor` (lines 7604-7626) with `NEEDS_STRUCTURE_CHAIN`
defined (the default): a `Vk`-prefixed type resolving (directly or through a
struct's alias set) to a struct listed in `m_extendedStructs`. -/
def isStructureChainAnchor (g : Generator) (type : String) : Bool :=
  beginsWith type "Vk" &&
    (match (g.structures.find? (fun sd => sd.1 == type)).orElse
        (fun _ => g.structures.find? (fun sd => sd.2.contains type)) with
     | some sd => g.extendedStructs.contains sd.1
     | none => false)

/-! ## Overload selector (`appendCommand`, lines 1102-1334)

The selector emits, per command, one coherent block of overloads; we record
which `appendCommand...` emission routine runs via `ShapeKind`.  The shape
decision depends on the command name only through
`beginsWith name (COMMAND_PREFIX "Get")` (line 1160), which `coreShape`
receives as a Bool; `appendCommandCore` wires the actual name back in, also
for the "Never encountered a function like <name> !" error text thrown by
`appendCommandStandardAndEnhanced` (line 1489). -/

/-- The emission routines `appendCommand` can select (one per coherent block
of overloads). -/
inductive ShapeKind where
  | standard
  | standardOrEnhanced
  | standardAndEnhanced
  | unique
  | vectorSingularUnique
  | vectorUnique
  | chained
  | singular
  | vector
  | standardEnhancedDeprecatedAllocator
  | vectorChained
  | vectorDeprecated
deriving DecidableEq, Repr, Inhabited

/-- The selection switch of `appendCommand` (lines 1110-1313) combined with
the enhanced-overload construction switch of
`appendCommandStandardAndEnhanced` (lines 1448-1490), whose failure throws.
`.ok none` means no branch set `appendedFunction` (the shape error path);
`.error ()` is the `std::runtime_error` thrown at line 1489. -/
def coreShape (g : Generator) (nameIsGet : Bool) (params : List ParamData)
    (returnType : String) : Except Unit (Option ShapeKind) :=
  let vpi := determineVectorParamIndicesNew params
  let pget := fun i => params.getD i default
  match determineNonConstPointerParamIndices params with
  | [] =>
    let cpp := determineConstPointerParamIndices params
    if vpi.isEmpty && cpp.all (fun i => (pget i).type.type == "void") then
      if returnType == "VkResult" then .ok (some .standardOrEnhanced)
      else .ok (some .standard)
    else
      if returnType == "void" then .ok (some .standardAndEnhanced)
      else if returnType == "VkResult" then
        match vpi with
        | [] => .ok (some .standardAndEnhanced)
        | [_] => .ok (some .standardAndEnhanced)
        | [(_, l0), (_, l1)] =>
          if l0 != INVALID_INDEX && l0 == l1 && (pget l0).type.isValue then
            .ok (some .standardAndEnhanced)
          else .error ()
        | _ => .error ()
      else if vpi.isEmpty then .ok (some .standardAndEnhanced)
      else .error ()
  | [r] =>
    if isHandleType g (pget r).type.type then
      match vpi.lookup r with
      | none =>
        if returnType == "VkResult" then .ok (some .unique)
        else if returnType == "void" && nameIsGet then .ok (some .standardAndEnhanced)
        else .ok none
      | some rl =>
        if (pget rl).type.isValue then
          match vpi with
          | [(_, l0), (_, l1)] => if l0 == l1 then .ok (some .vectorSingularUnique) else .ok none
          | _ => .ok none
        else if isLenByStructMember (pget r).len (pget rl) && vpi.length == 1 then
          .ok (some .vectorUnique)
        else .ok none
    else if isStructureChainAnchor g (pget r).type.type then
      match vpi.lookup r with
      | none => .ok (some .chained)
      | some _ => .ok none
    else
      match vpi.lookup r with
      | none =>
        if returnType == "VkResult" || returnType == "void" then .ok (some .standardAndEnhanced)
        else .ok none
      | some rl =>
        if (pget r).type.type == "void" && (pget rl).type.isValue then .ok (some .singular)
        else .ok none
  | [r0, r1] =>
    if !(isHandleType g (pget r0).type.type) && !(isStructureChainAnchor g (pget r0).type.type) then
      if isStructureChainAnchor g (pget r1).type.type then
        if returnType == "VkResult" || returnType == "void" then .ok (some .vectorChained)
        else .ok none
      else
        match vpi with
        | [(v, l)] =>
          if l == r0 && v == r1 then
            if returnType == "VkResult" || returnType == "void" then .ok (some .vector)
            else .ok none
          else .ok none
        | [_, _] =>
          if (vpi.lookup r0).isSome && !(vpi.lookup r1).isSome && returnType == "VkResult" then
            .ok (some .standardEnhancedDeprecatedAllocator)
          else .ok none
        | _ => .ok none
    else .ok none
  | [r0, r1, r2] =>
    match vpi with
    | [(v0, l0), (v1, l1)] =>
      if l0 == r0 && v0 == r1 && v1 == r2 then
        if l0 != INVALID_INDEX && l0 == l1 then
          if (pget v0).type.isNonConstPointer && (pget v1).type.isNonConstPointer &&
              (pget l0).type.isNonConstPointer then
            .ok (some .vectorDeprecated)
          else .ok none
        else .ok none
      else .ok none
    | _ => .ok none
  | _ => .ok none

/-- The shape decision for a named command; the thrown error carries the
command name (lines 1489 and 1332-1333 use the same sentence). -/
def appendCommandCore (g : Generator) (name : String) (cd : CommandData) :
    Except String (Option ShapeKind) :=
  (coreShape g (beginsWith name "vkGet") cd.params cd.returnType).mapError
    (fun _ => "Never encountered a function like " ++ name ++ " !")

/-- One coherent block of overloads appended by `appendCommand`: the name it
was emitted under, the selected shape, and the feature / extensions /
xml line used for protection. -/
structure Block where
  name : String
  kind : ShapeKind
  feature : String
  extensions : List String
  xmlLine : Nat
deriving DecidableEq, Repr

/-- `appendCommand` (lines 1102-1334) with explicit recursion fuel: on a
successful shape selection the block is appended and, for every entry of the
alias table, `appendCommand` is re-run under the alias name with the alias's
extensions, feature and xml line and a cleared alias table (lines 1315-1330);
when no shape matches, "Never encountered a function like <name> !" is
printed (modeled as the log component) and nothing is emitted. -/
def appendCommandAux (g : Generator) : Nat → String → CommandData →
    Except String (List Block × List String)
  | 0, _, _ => .ok ([], [])
  | fuel + 1, nm, cd =>
    match appendCommandCore g nm cd with
    | .error e => .error e
    | .ok none => .ok ([], ["Never encountered a function like " ++ nm ++ " !"])
    | .ok (some k) =>
      cd.aliasData.foldlM
        (fun acc ad => do
          let sub ← appendCommandAux g fuel ad.1
            { cd with aliasData := [], extensions := ad.2.extensions,
                      feature := ad.2.feature, xmlLine := ad.2.xmlLine }
          pure (acc.1 ++ sub.1, acc.2 ++ sub.2))
        ([⟨nm, k, cd.feature, cd.extensions, cd.xmlLine⟩], [])

/-- `appendCommand` at its call sites: the alias recursion is exactly one
level deep because the recursive calls clear the alias table, so fuel 2
realizes the C++ recursion. -/
def appendCommand (g : Generator) (nm : String) (cd : CommandData) :
    Except String (List Block × List String) :=
  appendCommandAux g 2 nm cd

/-! ## Two-step ("enumerate") emission bodies

`appendFunctionBodyEnhancedTwoStep` (lines 2498-2564) selects one of three
literal body templates; `constructCommandResultEnumerate` /
`constructCommandVoidEnumerate` (lines 3620-3732 and 5279-5364, reached from
`appendCommandVector`) carry the corresponding bodies inline in their
definition templates.  `HEADER_MACRO` is expanded to `VULKAN_HPP` and
`NEEDS_DISPATCH` is active, as in the shipped configuration. -/

/-- `multiSuccessTemplate` of `appendFunctionBodyEnhancedTwoStep`
(lines 2519-2535). -/
def multiSuccessTemplate : String :=
  "${i}  Result result;\n${i}  do\n${i}  \x7b\n${i}    result = static_cast<Result>( ${call1} );\n${i}    if ( ( result == Result::eSuccess ) && ${sizeName} )\n${i}    \x7b\n${i}      ${returnName}.resize( ${sizeName} );\n${i}      result = static_cast<Result>( ${call2} );\n${i}    \x7d\n${i}  \x7d while ( result == Result::eIncomplete );\n${i}  if ( result == Result::eSuccess )\n${i}  \x7b\n${i}    VULKAN_HPP_ASSERT( ${sizeName} <= ${returnName}.size() );\n${i}    ${returnName}.resize( ${sizeName} );\n${i}  \x7d\n"

/-- `singleSuccessTemplate` of `appendFunctionBodyEnhancedTwoStep`
(lines 2536-2543). -/
def singleSuccessTemplate : String :=
  "${i}  Result result = static_cast<Result>( ${call1} );\n${i}  if ( ( result == Result::eSuccess ) && ${sizeName} )\n${i}  \x7b\n${i}    ${returnName}.resize( ${sizeName} );\n${i}    result = static_cast<Result>( ${call2} );\n${i}  \x7d\n"

/-- `voidMultiCallTemplate` of `appendFunctionBodyEnhancedTwoStep`
(lines 2544-2548). -/
def voidMultiCallTemplate : String :=
  "${i}  ${call1};\n${i}  ${returnName}.resize( ${sizeName} );\n${i}  ${call2};\n"

/-- The template selection of `appendFunctionBodyEnhancedTwoStep`
(lines 2549-2552): `VkResult` commands get the looping template exactly when
they have more than one success code, all other return types (the function
asserts `VkResult` or `void`) get the plain two-call template. -/
def selectedTwoStepTemplate (cd : CommandData) : String :=
  if cd.returnType == "VkResult" then
    (if 1 < cd.successCodes.length then multiSuccessTemplate else singleSuccessTemplate)
  else voidMultiCallTemplate

/-- The definition-mode body template of `constructCommandResultEnumerate`
(lines 3656-3681), the enhanced overload emitted by `appendCommandVector`
for `VkResult` enumerate commands. -/
def resultEnumerateBodyTemplate : String :=
  "  template <typename ${allocatorType}, typename Dispatch${typenameCheck}>\n  ${nodiscard}VULKAN_HPP_INLINE typename ResultValueType<std::vector<${vectorElementType}, ${allocatorType}>>::type ${className}${classSeparator}${commandName}( ${argumentList} )${const}\n  \x7b\n    std::vector<${vectorElementType}, ${allocatorType}> ${vectorName}${vectorAllocator};\n    ${counterType} ${counterName};\n    Result result;\n    do\n    \x7b\n      result = static_cast<Result>( d.${vkCommand}( ${firstCallArguments} ) );\n      if ( ( result == Result::eSuccess ) && ${counterName} )\n      \x7b\n        ${vectorName}.resize( ${counterName} );\n        result = static_cast<Result>( d.${vkCommand}( ${secondCallArguments} ) );\n        VULKAN_HPP_ASSERT( ${counterName} <= ${vectorName}.size() );\n      \x7d\n    \x7d while ( result == Result::eIncomplete );\n    if ( ( result == Result::eSuccess ) && ( ${counterName} < ${vectorName}.size() ) )\n    \x7b\n      ${vectorName}.resize( ${counterName} );\n    \x7d\n    return createResultValue( result, ${vectorName}, VULKAN_HPP_NAMESPACE_STRING\"::${className}${classSeparator}${commandName}\" );\n  \x7d"

/-- The definition-mode body template of `constructCommandVoidEnumerate`
(lines 5299-5313), the enhanced overload emitted by `appendCommandVector`
for `void` enumerate commands. -/
def voidEnumerateBodyTemplate : String :=
  "  template <typename ${vectorElementType}Allocator, typename Dispatch${typenameCheck}>\n  VULKAN_HPP_NODISCARD VULKAN_HPP_INLINE std::vector<${vectorElementType}, ${vectorElementType}Allocator> ${className}${classSeparator}${commandName}( ${argumentList} ) const\n  \x7b\n    std::vector<${vectorElementType}, ${vectorElementType}Allocator> ${vectorName}${vectorAllocator};\n    ${counterType} ${counterName};\n    d.${vkCommand}( ${firstCallArguments} );\n    ${vectorName}.resize( ${counterName} );\n    d.${vkCommand}( ${secondCallArguments} );\n    VULKAN_HPP_ASSERT( ${counterName} <= ${vectorName}.size() );\n    return ${vectorName};\n  \x7d"

/-- The text of `resultEnumerateBodyTemplate` before its do-while footer. -/
def rePre1 : String := "  template <typename $\x7ballocatorType\x7d, typename Dispatch$\x7btypenameCheck\x7d>\n  $\x7bnodiscard\x7dVULKAN_HPP_INLINE typename ResultValueType<std::vector<$\x7bvectorElementType\x7d, $\x7ballocatorType\x7d>>::type $\x7bclassName\x7d$\x7bclassSeparator\x7d$\x7bcommandName\x7d( $\x7bargumentList\x7d )$\x7bconst\x7d\n  \x7b\n    std::vector<$\x7bvectorElementType\x7d, $\x7ballocatorType\x7d> $\x7bvectorName\x7d$\x7bvectorAllocator\x7d;\n    $\x7bcounterType\x7d $\x7bcounterName\x7d;\n    Result result;\n    do\n    \x7b\n      result = static_cast<Result>( d.$\x7bvkCommand\x7d( $\x7bfirstCallArguments\x7d ) );\n      if ( ( result == Result::eSuccess ) && $\x7bcounterName\x7d )\n      \x7b\n        $\x7bvectorName\x7d.resize( $\x7bcounterName\x7d );\n        result = static_cast<Result>( d.$\x7bvkCommand\x7d( $\x7bsecondCallArguments\x7d ) );\n        VULKAN_HPP_ASSERT( $\x7bcounterName\x7d <= $\x7bvectorName\x7d.size() );\n      \x7d\n    "

/-- The do-while footer of `resultEnumerateBodyTemplate`. -/
def rePat1 : String := "\x7d while ( result == Result::eIncomplete );"

/-- The text of `resultEnumerateBodyTemplate` after its do-while footer. -/
def rePost1 : String := "\n    if ( ( result == Result::eSuccess ) && ( $\x7bcounterName\x7d < $\x7bvectorName\x7d.size() ) )\n    \x7b\n      $\x7bvectorName\x7d.resize( $\x7bcounterName\x7d );\n    \x7d\n    return createResultValue( result, $\x7bvectorName\x7d, VULKAN_HPP_NAMESPACE_STRING\"::$\x7bclassName\x7d$\x7bclassSeparator\x7d$\x7bcommandName\x7d\" );\n  \x7d"

/-- The text of `resultEnumerateBodyTemplate` before its final trim block. -/
def rePre2 : String := "  template <typename $\x7ballocatorType\x7d, typename Dispatch$\x7btypenameCheck\x7d>\n  $\x7bnodiscard\x7dVULKAN_HPP_INLINE typename ResultValueType<std::vector<$\x7bvectorElementType\x7d, $\x7ballocatorType\x7d>>::type $\x7bclassName\x7d$\x7bclassSeparator\x7d$\x7bcommandName\x7d( $\x7bargumentList\x7d )$\x7bconst\x7d\n  \x7b\n    std::vector<$\x7bvectorElementType\x7d, $\x7ballocatorType\x7d> $\x7bvectorName\x7d$\x7bvectorAllocator\x7d;\n    $\x7bcounterType\x7d $\x7bcounterName\x7d;\n    Result result;\n    do\n    \x7b\n      result = static_cast<Result>( d.$\x7bvkCommand\x7d( $\x7bfirstCallArguments\x7d ) );\n      if ( ( result == Result::eSuccess ) && $\x7bcounterName\x7d )\n      \x7b\n        $\x7bvectorName\x7d.resize( $\x7bcounterName\x7d );\n        result = static_cast<Result>( d.$\x7bvkCommand\x7d( $\x7bsecondCallArguments\x7d ) );\n        VULKAN_HPP_ASSERT( $\x7bcounterName\x7d <= $\x7bvectorName\x7d.size() );\n      \x7d\n    \x7d while ( result == Result::eIncomplete );\n    "

/-- The final trim block of `resultEnumerateBodyTemplate`. -/
def rePat2 : String := "if ( ( result == Result::eSuccess ) && ( $\x7bcounterName\x7d < $\x7bvectorName\x7d.size() ) )\n    \x7b\n      $\x7bvectorName\x7d.resize( $\x7bcounterName\x7d );"

/-- The text of `resultEnumerateBodyTemplate` after its final trim block. -/
def rePost2 : String := "\n    \x7d\n    return createResultValue( result, $\x7bvectorName\x7d, VULKAN_HPP_NAMESPACE_STRING\"::$\x7bclassName\x7d$\x7bclassSeparator\x7d$\x7bcommandName\x7d\" );\n  \x7d"

/-- `appendReinterpretCast` (lines 152-160). -/
def appendReinterpretCast (leadingConst : Bool) (type : String) : String :=
  "reinterpret_cast<" ++ (if leadingConst then "const " else "") ++ type ++ "*>"

/-- `appendArgumentVector` (lines 850-882): the call argument rendered for a
vector parameter.  When the parameter is the return parameter of the first
call of a two-step algorithm, the argument is the null pointer; otherwise the
vector's data pointer (reinterpret-cast for `Vk`-prefixed or templated
element types). -/
def appendArgumentVector (paramIndex : Nat) (paramData : ParamData)
    (returnParamIndex templateParamIndex : Nat) (twoStep firstCall : Bool) : String :=
  if returnParamIndex == paramIndex && twoStep && firstCall then "nullptr"
  else
    let parameterName := startLowerCase (stripPre paramData.name "p")
    if beginsWith paramData.type.type "Vk" || paramIndex == templateParamIndex then
      appendReinterpretCast (beginsWith paramData.type.pre "const") paramData.type.type ++
        "( " ++ parameterName ++ ".data() )"
    else parameterName ++ ".data()"

/-! ## Cross-reference validation of sType values
(`checkCorrectness`, lines 6900-7011, sType portion)

The structure loop collects every value of each struct's `sType` member into
one set, raising a located error when a value was inserted before; the
subsequent `VkStructureType` loop requires the two reserved loader values to
be absent from that set and erases every other enum value from it, raising a
located error when the erase fails (value never used).  A struct is
represented by its xml line together with the `values` list of its `sType`
member (earlier checks of the same function have already forced these values
to be values of the `VkStructureType` enum). -/

/-- A located diagnostic as raised by `check` (line 193). -/
structure SLoc where
  line : Nat
  msg : String
deriving DecidableEq, Repr

/-- Insertion of one struct's sType values into the accumulated set
(lines 6960-6968). -/
def addSTypeValues (acc : List String) (line : Nat) : List String → Except SLoc (List String)
  | [] => .ok acc
  | v :: vs =>
    if acc.contains v then
      .error ⟨line, "sType value <" ++ v ++ "> has been used before"⟩
    else addSTypeValues (acc ++ [v]) line vs

/-- The structure loop of `checkCorrectness` restricted to sType collection
(lines 6901-6968): folds `addSTypeValues` over the structs in map order. -/
def collectSTypeValues (acc : List String) :
    List (Nat × List String) → Except SLoc (List String)
  | [] => .ok acc
  | (line, vs) :: rest => do
    let acc2 ← addSTypeValues acc line vs
    collectSTypeValues acc2 rest

/-- The two reserved loader `VkStructureType` values (lines 6997-6998, with
`MACRO_PREFIX` = "VK"). -/
def reservedSTypes : List String :=
  ["VK_STRUCTURE_TYPE_LOADER_INSTANCE_CREATE_INFO",
   "VK_STRUCTURE_TYPE_LOADER_DEVICE_CREATE_INFO"]

/-- The `VkStructureType` loop of `checkCorrectness` (lines 6995-7010):
reserved values must be unused; every other enum value is erased from the
set and must have been present.  (The trailing `assert(sTypeValues.empty())`
is debug-only and does not raise.) -/
def checkSTypeEnumValues (s : List String) : List (Nat × String) → Except SLoc Unit
  | [] => .ok ()
  | (line, v) :: rest =>
    if reservedSTypes.contains v then
      if s.contains v then
        .error ⟨line, "Reserved <STRUCT_PREFIX>StructureType enum value <" ++ v ++ "> is used"⟩
      else checkSTypeEnumValues s rest
    else
      if s.contains v then checkSTypeEnumValues (s.erase v) rest
      else .error ⟨line, "VkStructureType enum value <" ++ v ++ "> never used"⟩

/-- The sType portion of `checkCorrectness`: collect, then check the enum. -/
def checkSTypeCorrectness (structs : List (Nat × List String))
    (enumValues : List (Nat × String)) : Except SLoc Unit := do
  let s ← collectSTypeValues [] structs
  checkSTypeEnumValues s enumValues

/-! ## Registry ingestion (the parts claims C5 and C9 need)

`readRegistry` (lines 8894-8960) dispatches the registry's children in
document order; `<extension supported="disabled">` is handled while the
`<extensions>` element is read (lines 8310-8317), in that same single pass.
The model keeps the maps the disabled-extension handlers touch. -/

/-- Categories of `m_types` entries relevant to
`readExtensionDisabledType`. -/
inductive TypeCategory where
  | bitmaskCat
  | enumCat
  | structCat
  | otherCat
deriving DecidableEq, Repr, Inhabited

/-- Printable category name (the diagnostic of the unhandled case; the
`toString(TypeCategory)` helper lives in the header, not in `src/`). -/
def typeCategoryString : TypeCategory → String
  | .bitmaskCat => "bitmask"
  | .enumCat => "enum"
  | .structCat => "struct"
  | .otherCat => "other"

/-- The registry model state touched by the modeled readers: commands
(name ↦ owning handle), handles (name ↦ command list), types
(name ↦ category), bitmasks (name ↦ alias), enums (name ↦ (alias, values)),
structures (name ↦ alias list). -/
structure RegModel where
  commands : List (String × String) := []
  handles : List (String × List String) := []
  types : List (String × TypeCategory) := []
  bitmasks : List (String × String) := []
  enums : List (String × (String × List String)) := []
  structures : List (String × List String) := []
deriving DecidableEq, Repr, Inhabited

/-- Replace the command list of the named handle. -/
def updateHandle (hs : List (String × List String)) (key : String)
    (cmds : List String) : List (String × List String) :=
  hs.map (fun h => if h.1 == key then (h.1, cmds) else h)

/-- `readExtensionDisabledCommand` (lines 8338-8358): when the named command
is currently in `m_commands` it is unlinked from its handle (a missing
handle is a located error) and erased; when it is absent, nothing happens
and no error is raised. -/
def readExtensionDisabledCommand (line : Nat) (name : String) (m : RegModel) :
    Except SLoc RegModel :=
  match m.commands.find? (fun c => c.1 == name) with
  | none => .ok m
  | some c =>
    match m.handles.find? (fun h => h.1 == c.2) with
    | none => .error ⟨line, "cannot find handle corresponding to command <" ++ name ++ ">"⟩
    | some h =>
      .ok { m with handles := updateHandle m.handles h.1 (h.2.erase name),
                   commands := m.commands.filter (fun cc => cc.1 ≠ name) }

/-- `readExtensionDisabledEnum` (lines 8360-8398): when the element carries
an `extends` attribute, the extended enum must exist and the named value
must NOT be among its values (a present value is a located error); nothing
is ever removed. -/
def readExtensionDisabledEnum (extensionName : String) (line : Nat)
    (extendsAttr name : String) (m : RegModel) : Except SLoc RegModel :=
  if extendsAttr ≠ "" then
    match m.enums.find? (fun e => e.1 == extendsAttr) with
    | none =>
      .error ⟨line, "disabled extension <" ++ extensionName ++ "> references unknown enum <" ++
        extendsAttr ++ ">"⟩
    | some e =>
      if e.2.2.contains name then
        .error ⟨line, "disabled extension <" ++ extensionName ++ "> references known enum value <" ++
          name ++ ">"⟩
      else .ok m
  else .ok m

/-- `readExtensionDisabledType` (lines 8431-8483): when the named type is
currently in `m_types` it is erased from the bitmask / enum / struct map of
its category (with located errors for a missing map entry, a present alias,
or an unhandled category); `m_types` itself is never touched, and an absent
name does nothing. -/
def readExtensionDisabledType (line : Nat) (name : String) (m : RegModel) :
    Except SLoc RegModel :=
  match m.types.find? (fun t => t.1 == name) with
  | none => .ok m
  | some t =>
    match t.2 with
    | .bitmaskCat =>
      match m.bitmasks.find? (fun b => b.1 == name) with
      | none => .error ⟨line, "trying to remove unknown bitmask <" ++ name ++ ">"⟩
      | some b =>
        if b.2 ≠ "" then
          .error ⟨line, "trying to remove disabled bitmask <" ++ name ++ "> which has alias <" ++
            b.2 ++ ">"⟩
        else .ok { m with bitmasks := m.bitmasks.filter (fun bb => bb.1 ≠ name) }
    | .enumCat =>
      match m.enums.find? (fun e => e.1 == name) with
      | none => .error ⟨line, "trying to remove unknown enum <" ++ name ++ ">"⟩
      | some e =>
        if e.2.1 ≠ "" then
          .error ⟨line, "trying to remove disabled enum <" ++ name ++ "> which has alias <" ++
            e.2.1 ++ ">"⟩
        else .ok { m with enums := m.enums.filter (fun ee => ee.1 ≠ name) }
    | .structCat =>
      match m.structures.find? (fun st => st.1 == name) with
      | none => .error ⟨line, "trying to remove unknown struct <" ++ name ++ ">"⟩
      | some st =>
        if st.2 ≠ [] then
          .error ⟨line, "trying to remove disabled structure <" ++ name ++ "> which has " ++
            toString st.2.length ++ "aliases"⟩
        else .ok { m with structures := m.structures.filter (fun ss => ss.1 ≠ name) }
    | .otherCat =>
      .error ⟨line, "trying to remove <" ++ name ++ "> of unhandled type <" ++
        typeCategoryString t.2 ++ ">"⟩

/-- The name test of `registerDeleter` (line 9868): the characters after the
`vk` prefix begin with "Destroy" or "Free". -/
def isDeleterName (name : String) : Bool :=
  beginsWith ⟨name.data.drop 2⟩ "Destroy" || beginsWith ⟨name.data.drop 2⟩ "Free"

/-- `readCommand`, model-mutating tail (lines 7829-7846), reached only after
`checkElements` has validated the element's children (line 7794) and
`registerDeleter` has run (line 7826; `registerDeleter` touches only the
per-handle deleter fields, which are outside this model, so it is the
identity on this state): the parameter list must be nonempty (located error
otherwise), the owning handle is the first parameter's type when that is a
handle and the default "" handle otherwise, and the command is inserted into
`m_commands` and into the handle's command list with duplicate checks. -/
def readCommandModel (m : RegModel) (line : Nat) (name : String) (cd : CommandData) :
    Except SLoc RegModel :=
  if cd.params.isEmpty then
    .error ⟨line, "command <" ++ name ++ "> with no params"⟩
  else
    let firstType := (cd.params.headD default).type.type
    let handleKey := if (m.handles.find? (fun h => h.1 == firstType)).isSome then firstType else ""
    match m.handles.find? (fun h => h.1 == handleKey) with
    | none => .error ⟨line, "could not find a handle to hold command <" ++ name ++ ">"⟩
    | some h =>
      if (m.commands.find? (fun c => c.1 == name)).isSome then
        .error ⟨line, "already encountered command <" ++ name ++ ">"⟩
      else if h.2.contains name then
        .error ⟨line, "command list of handle <" ++ h.1 ++ "> already holds a commnand <" ++
          name ++ ">"⟩
      else
        .ok { m with commands := m.commands ++ [(name, h.1)],
                     handles := updateHandle m.handles h.1 (h.2 ++ [name]) }

/-- `checkElements` (lines 255-279), required-map portion: for each required
element name (iterated in `std::map` key order), its occurrence count among
the children must be nonzero, and one when the name is marked exactly-once;
otherwise `check` raises the located error of line 272 or 274.  (The
preceding loop over the children only emits non-fatal warnings for unknown
element names and is not modeled.)  The `encountered` count of a name is the
number of children carrying that value. -/
def checkElements (line : Nat) (elements : List String) :
    List (String × Bool) → Except SLoc Unit
  | [] => .ok ()
  | (r, once) :: rest =>
    if elements.count r = 0 then
      .error ⟨line, "missing required element <" ++ r ++ ">"⟩
    else if once && elements.count r != 1 then
      .error ⟨line, "required element <" ++ r ++
        "> is supposed to be listed exactly once, but is listed " ++
        toString (elements.count r)⟩
    else checkElements line elements rest

/-- The required-elements map `readCommand` passes to `checkElements`
(line 7794), in `std::map` (key-ascending) order: `<param>` required at
least once, `<proto>` required exactly once. -/
def commandRequiredElements : List (String × Bool) :=
  [("param", false), ("proto", true)]

/-- `readCommand` (lines 7778-7847) at the element level.  The children are
validated against the required map FIRST (`checkElements`, line 7794); only
when that passes are the `<param>` children parsed into the parameter list
(one entry pushed per `<param>` child, lines 7812-7823), the deleter
registered (line 7826, the identity on this model's state) and the
handle/command bookkeeping of lines 7829-7846 performed, which
`readCommandModel` embeds. -/
def readCommandElement (m : RegModel) (line : Nat) (childValues : List String)
    (name : String) (cd : CommandData) : Except SLoc RegModel := do
  checkElements line childValues commandRequiredElements
  readCommandModel m line name cd

/-- A registry child relevant to the order question of claim C5, in document
order: a `<command>` declaration or an entry of a disabled extension's
`<require>` block. -/
inductive RegItem where
  | commandItem (line : Nat) (name : String) (cd : CommandData)
  | disabledCommandItem (line : Nat) (name : String)
  | disabledTypeItem (line : Nat) (name : String)
  | disabledEnumItem (extensionName : String) (line : Nat) (extendsAttr name : String)
deriving Repr

/-- The document-order dispatch of `readRegistry` / `readExtensions`
(lines 8894-8960, 8310-8317): one single pass, each child processed as it is
encountered. -/
def readRegistryItems (m : RegModel) : List RegItem → Except SLoc RegModel
  | [] => .ok m
  | item :: rest => do
    let m2 ← (match item with
      | .commandItem line name cd => readCommandModel m line name cd
      | .disabledCommandItem line name => readExtensionDisabledCommand line name m
      | .disabledTypeItem line name => readExtensionDisabledType line name m
      | .disabledEnumItem ext line exts name => readExtensionDisabledEnum ext line exts name m)
    readRegistryItems m2 rest

/-- The star-spacing guarantee `trimStars` establishes: in the output, a
`'*'` that has a preceding character is preceded by a space or by another
`'*'` (adjacent stars are not separated). -/
def starSpacingOk : Char → Char → Prop := fun a b => b = '*' → a = ' ' ∨ a = '*'

/-- The zero-return-parameter discriminator of `appendCommand`
(lines 1116-1120): no vector parameter and no const-pointer parameter of
non-void type. -/
def zeroReturnPlainCase (cd : CommandData) : Bool :=
  (determineVectorParamIndicesNew cd.params).isEmpty &&
    (determineConstPointerParamIndices cd.params).all
      (fun i => (cd.params.getD i default).type.type == "void")

/-- Whether `appendCommandStandardAndEnhanced` can construct the enhanced
overload for a command with zero return-parameter candidates (the `case 0`
switch of lines 1451-1477); when this is false the function throws. -/
def zeroReturnEnhancedOk (cd : CommandData) : Bool :=
  if cd.returnType == "void" then true
  else if cd.returnType == "VkResult" then
    match determineVectorParamIndicesNew cd.params with
    | [] => true
    | [_] => true
    | [(_, l0), (_, l1)] =>
      l0 != INVALID_INDEX && l0 == l1 && (cd.params.getD l0 default).type.isValue
    | _ => false
  else (determineVectorParamIndicesNew cd.params).isEmpty

/-- All sType values contributed by the structs, in collection order. -/
def allSTypeValues (structs : List (Nat × List String)) : List String :=
  (structs.map (fun st => st.2)).flatten

/-! ## Lemmas about `splitBrace` and `replaceWithMap` -/

theorem splitBrace_eq {l a b : List Char} (h : splitBrace l = some (a, b)) :
    l = a ++ '}' :: b ∧ '}' ∉ a := by
  induction l generalizing a b with
  | nil => simp [splitBrace] at h
  | cons c cs ih =>
    by_cases hc : c = '}'
    · simp [splitBrace, hc] at h
      constructor
      · simp [hc, ← h.1, ← h.2]
      · simp [h.1]
    · rw [splitBrace] at h
      simp only [if_neg hc] at h
      cases hsb : splitBrace cs with
      | none => rw [hsb] at h; simp at h
      | some p =>
        rw [hsb] at h
        obtain ⟨a2, b2⟩ := p
        simp at h
        obtain ⟨ie, it⟩ := ih hsb
        constructor
        · rw [← h.1, ← h.2]
          simp [ie]
        · rw [← h.1]
          simp [it]
          exact fun hh => hc hh.symm

theorem splitBrace_none {l : List Char} (h : splitBrace l = none) : '}' ∉ l := by
  induction l with
  | nil => simp
  | cons c cs ih =>
    by_cases hc : c = '}'
    · simp [splitBrace, hc] at h
    · rw [splitBrace] at h
      simp only [if_neg hc] at h
      cases hsb : splitBrace cs with
      | none => simp [Ne.symm hc, ih hsb]
      | some p => rw [hsb] at h; obtain ⟨x, y⟩ := p; simp at h

theorem splitBrace_append {a b : List Char} (ha : '}' ∉ a) :
    splitBrace (a ++ '}' :: b) = some (a, b) := by
  induction a with
  | nil => simp [splitBrace]
  | cons c cs ih =>
    simp at ha
    rw [List.cons_append, splitBrace]
    simp only [if_neg (Ne.symm ha.1)]
    rw [ih ha.2]

theorem rwm_nil (m : List (List Char × List Char)) : replaceWithMap m [] = [] := by
  simp [replaceWithMap]

theorem rwm_other (m : List (List Char × List Char)) (c : Char) (cs : List Char)
    (h : c ≠ '$') : replaceWithMap m (c :: cs) = c :: replaceWithMap m cs := by
  rw [replaceWithMap.eq_def]
  split
  · rename_i heq
    simp at heq
  · rename_i rest heq
    injection heq with h1 h2
    exact absurd h1 h
  · rename_i c2 cs2 hno heq
    injection heq with h1 h2
    subst h1
    subst h2
    rfl

theorem rwm_dollar_nb (m : List (List Char × List Char)) (cs : List Char)
    (h : ∀ rest, cs ≠ '{' :: rest) :
    replaceWithMap m ('$' :: cs) = '$' :: replaceWithMap m cs := by
  rw [replaceWithMap.eq_def]
  split
  · rename_i heq
    simp at heq
  · rename_i rest heq
    injection heq with h1 h2
    exact absurd h2 (h rest)
  · rename_i c2 cs2 hno heq
    injection heq with h1 h2
    subst h1
    subst h2
    rfl

theorem rwm_tok (m : List (List Char × List Char)) (nm rest : List Char)
    (hne : nm ≠ []) (hnm : '}' ∉ nm) :
    replaceWithMap m ('$' :: '{' :: (nm ++ '}' :: rest)) =
      ((lookupStr m nm).getD ('$' :: '{' :: (nm ++ [ '}' ]))) ++ replaceWithMap m rest := by
  rw [replaceWithMap.eq_def]
  split
  · rename_i heq
    simp at heq
  · rename_i rest2 heq
    injection heq with h1 h2
    injection h2 with h3 h4
    subst h4
    split
    · rename_i nm2 rest2 hsb
      rw [splitBrace_append hnm] at hsb
      injection hsb with h5
      injection h5 with h6 h7
      subst h6
      subst h7
      simp [hne]
    · rename_i hsb
      rw [splitBrace_append hnm] at hsb
      exact absurd hsb (by simp)
  · rename_i c2 cs2 hno heq
    injection heq with h1 h2
    exact (hno (nm ++ '}' :: rest) h1.symm h2.symm).elim

theorem rwm_dollar_nobrace (m : List (List Char × List Char)) (rest : List Char)
    (h : '}' ∉ rest) :
    replaceWithMap m ('$' :: '{' :: rest) = '$' :: replaceWithMap m ('{' :: rest) := by
  rw [replaceWithMap.eq_def]
  split
  · rename_i heq
    simp at heq
  · rename_i rest2 heq
    injection heq with h1 h2
    injection h2 with h3 h4
    subst h4
    split
    · rename_i nm2 rest2 hsb
      have := (splitBrace_eq hsb).1
      exact absurd (by rw [this]; simp) h
    · rfl
  · rename_i c2 cs2 hno heq
    injection heq with h1 h2
    exact (hno rest h1.symm h2.symm).elim

theorem rwm_dollar_emptyname (m : List (List Char × List Char)) (rest : List Char) :
    replaceWithMap m ('$' :: '{' :: '}' :: rest) = '$' :: replaceWithMap m ('{' :: '}' :: rest) := by
  rw [replaceWithMap.eq_def]
  split
  · rename_i heq
    simp at heq
  · rename_i rest2 heq
    injection heq with h1 h2
    injection h2 with h3 h4
    subst h4
    split
    · rename_i nm2 rest2 hsb
      have h0 : splitBrace ('}' :: rest) = some ([], rest) := by simp [splitBrace]
      rw [h0] at hsb
      simp at hsb
      rw [hsb.1, hsb.2]
      simp
    · rename_i hsb
      simp [splitBrace] at hsb
  · rename_i c2 cs2 hno heq
    injection heq with h1 h2
    exact (hno ('}' :: rest) h1.symm h2.symm).elim

theorem phNames_nil : phNames [] = [] := by
  simp [phNames]

theorem phNames_other (c : Char) (cs : List Char) (h : c ≠ '$') :
    phNames (c :: cs) = phNames cs := by
  rw [phNames.eq_def]
  split
  · rename_i heq
    simp at heq
  · rename_i rest heq
    injection heq with h1 h2
    exact absurd h1 h
  · rename_i c2 cs2 hno heq
    injection heq with h1 h2
    subst h1
    subst h2
    rfl

theorem phNames_dollar_nb (cs : List Char) (h : ∀ rest, cs ≠ '{' :: rest) :
    phNames ('$' :: cs) = phNames cs := by
  rw [phNames.eq_def]
  split
  · rename_i heq
    simp at heq
  · rename_i rest heq
    injection heq with h1 h2
    exact absurd h2 (h rest)
  · rename_i c2 cs2 hno heq
    injection heq with h1 h2
    subst h1
    subst h2
    rfl

theorem phNames_tok (nm rest : List Char) (hne : nm ≠ []) (hnm : '}' ∉ nm) :
    phNames ('$' :: '{' :: (nm ++ '}' :: rest)) = nm :: phNames rest := by
  rw [phNames.eq_def]
  split
  · rename_i heq
    simp at heq
  · rename_i rest2 heq
    injection heq with h1 h2
    injection h2 with h3 h4
    subst h4
    split
    · rename_i nm2 rest2 hsb
      rw [splitBrace_append hnm] at hsb
      simp at hsb
      rw [← hsb.1, ← hsb.2]
      simp [hne]
    · rename_i hsb
      rw [splitBrace_append hnm] at hsb
      exact absurd hsb (by simp)
  · rename_i c2 cs2 hno heq
    injection heq with h1 h2
    exact (hno (nm ++ '}' :: rest) h1.symm h2.symm).elim

theorem phNames_dollar_nobrace (rest : List Char) (h : '}' ∉ rest) :
    phNames ('$' :: '{' :: rest) = phNames ('{' :: rest) := by
  rw [phNames.eq_def]
  split
  · rename_i heq
    simp at heq
  · rename_i rest2 heq
    injection heq with h1 h2
    injection h2 with h3 h4
    subst h4
    split
    · rename_i nm2 rest2 hsb
      have := (splitBrace_eq hsb).1
      exact absurd (by rw [this]; simp) h
    · rfl
  · rename_i c2 cs2 hno heq
    injection heq with h1 h2
    exact (hno rest h1.symm h2.symm).elim

theorem phNames_dollar_emptyname (rest : List Char) :
    phNames ('$' :: '{' :: '}' :: rest) = phNames ('{' :: '}' :: rest) := by
  rw [phNames.eq_def]
  split
  · rename_i heq
    simp at heq
  · rename_i rest2 heq
    injection heq with h1 h2
    injection h2 with h3 h4
    subst h4
    split
    · rename_i nm2 rest2 hsb
      have h0 : splitBrace ('}' :: rest) = some ([], rest) := by simp [splitBrace]
      rw [h0] at hsb
      simp at hsb
      rw [hsb.1, hsb.2]
      simp
    · rename_i hsb
      simp [splitBrace] at hsb
  · rename_i c2 cs2 hno heq
    injection heq with h1 h2
    exact (hno ('}' :: rest) h1.symm h2.symm).elim

theorem lookupStr_mem {m : List (List Char × List Char)} {k v : List Char}
    (h : lookupStr m k = some v) : (k, v) ∈ m := by
  induction m with
  | nil => simp [lookupStr] at h
  | cons kv rest ihm =>
    rw [lookupStr] at h
    by_cases hk : kv.1 = k
    · simp [hk] at h
      have hkv : kv = (k, v) := by
        cases kv
        simp_all
      rw [hkv]
      exact List.mem_cons_self _ _
    · simp [hk] at h
      right
      exact ihm h

theorem containsToken_cons {c : Char} {l : List Char} (h : containsToken (c :: l)) :
    (c = '$' ∧ ∃ nm s, l = '{' :: (nm ++ '}' :: s) ∧ nm ≠ [] ∧ '}' ∉ nm) ∨ containsToken l := by
  obtain ⟨p, nm, s, he, hne, hnm⟩ := h
  cases p with
  | nil =>
    left
    injection he with h1 h2
    exact ⟨h1, nm, s, h2, hne, hnm⟩
  | cons q p2 =>
    right
    injection he with h1 h2
    exact ⟨p2, nm, s, h2, hne, hnm⟩

theorem containsToken_append {a b : List Char} (h : containsToken (a ++ b)) :
    '$' ∈ a ∨ containsToken b := by
  induction a with
  | nil => right; simpa using h
  | cons c a2 ih =>
    rw [List.cons_append] at h
    rcases containsToken_cons h with ⟨hc, _⟩ | h2
    · left; simp [hc]
    · rcases ih h2 with hd | hb
      · left; simp [hd]
      · right; exact hb

theorem containsToken_brace {l : List Char} (h : containsToken l) : '}' ∈ l := by
  obtain ⟨p, nm, s, he, hne, hnm⟩ := h
  rw [he]
  simp

theorem containsToken_dollar {l : List Char} (h : containsToken l) : '$' ∈ l := by
  obtain ⟨p, nm, s, he, hne, hnm⟩ := h
  rw [he]
  simp

theorem not_containsToken_nil : ¬ containsToken [] := by
  intro h
  simpa using containsToken_dollar h

theorem rwm_no_brace (m : List (List Char × List Char)) (l : List Char) (h : '}' ∉ l) :
    replaceWithMap m l = l := by
  induction l with
  | nil => exact rwm_nil m
  | cons c cs ih =>
    simp at h
    by_cases hc : c = '$'
    · subst hc
      cases cs with
      | nil => rw [rwm_dollar_nb m [] (by simp), rwm_nil]
      | cons c2 cs2 =>
        by_cases h2 : c2 = '{'
        · subst h2
          rw [rwm_dollar_nobrace m cs2 (by simp_all)]
          rw [ih h.2]
        · rw [rwm_dollar_nb m (c2 :: cs2) (by intro rest hr; injection hr with hx; exact h2 hx)]
          rw [ih h.2]
    · rw [rwm_other m c cs hc, ih h.2]

theorem rwm_head_brace (m : List (List Char × List Char)) (l : List Char)
    (H2 : ∀ kv ∈ m, kv.2 ≠ [] ∧ '{' ∉ kv.2)
    (h : (replaceWithMap m l).head? = some '{') : l.head? = some '{' := by
  cases l with
  | nil => rw [rwm_nil] at h; simp at h
  | cons c cs =>
    by_cases hc : c = '$'
    · subst hc
      exfalso
      cases cs with
      | nil =>
        rw [rwm_dollar_nb m [] (by simp), rwm_nil] at h
        simp at h
      | cons c2 cs2 =>
        by_cases h2 : c2 = '{'
        · subst h2
          cases hsb : splitBrace cs2 with
          | none =>
            rw [rwm_dollar_nobrace m cs2 (splitBrace_none hsb)] at h
            simp at h
          | some p =>
            obtain ⟨nm, rest'⟩ := p
            obtain ⟨he, hb⟩ := splitBrace_eq hsb
            by_cases hne : nm = []
            · subst hne
              simp at he
              rw [he, rwm_dollar_emptyname] at h
              simp at h
            · rw [he, rwm_tok m nm rest' hne hb] at h
              cases hlk : lookupStr m nm with
              | none =>
                rw [hlk] at h
                simp at h
              | some v =>
                rw [hlk] at h
                have hv := H2 (nm, v) (lookupStr_mem hlk)
                simp at hv
                cases v with
                | nil => exact hv.1 rfl
                | cons v0 vtl =>
                  simp at h
                  simp [h] at hv
        · rw [rwm_dollar_nb m (c2 :: cs2) (by
            intro rest hr
            injection hr with hx
            exact h2 hx)] at h
          simp at h
    · rw [rwm_other m c cs hc] at h
      simp at h
      simp [h]

theorem rwm_noResidual_aux (m : List (List Char × List Char))
    (H2 : ∀ kv ∈ m, kv.2 ≠ [] ∧ '$' ∉ kv.2 ∧ '{' ∉ kv.2) :
    ∀ n l, l.length ≤ n → (∀ nm ∈ phNames l, (lookupStr m nm).isSome = true) →
    ¬ containsToken (replaceWithMap m l) := by
  have H2' : ∀ kv ∈ m, kv.2 ≠ [] ∧ '{' ∉ kv.2 := fun kv hm => ⟨(H2 kv hm).1, (H2 kv hm).2.2⟩
  intro n
  induction n with
  | zero =>
    intro l hl _
    have : l = [] := List.length_eq_zero.mp (Nat.le_zero.mp hl)
    rw [this, rwm_nil]
    exact not_containsToken_nil
  | succ n ih =>
    intro l hl H1
    cases l with
    | nil => rw [rwm_nil]; exact not_containsToken_nil
    | cons c cs =>
      by_cases hc : c = '$'
      · subst hc
        cases cs with
        | nil =>
          rw [rwm_dollar_nb m [] (by simp), rwm_nil]
          intro htok
          simpa using containsToken_brace htok
        | cons c2 cs2 =>
          by_cases h2 : c2 = '{'
          · subst h2
            cases hsb : splitBrace cs2 with
            | none =>
              have hnb := splitBrace_none hsb
              rw [rwm_dollar_nobrace m cs2 hnb, rwm_other m '{' cs2 (by decide),
                rwm_no_brace m cs2 hnb]
              intro htok
              have := containsToken_brace htok
              simp at this
              exact hnb this
            | some p =>
              obtain ⟨nm, rest'⟩ := p
              obtain ⟨he, hb⟩ := splitBrace_eq hsb
              by_cases hne : nm = []
              · subst hne
                simp at he
                subst he
                rw [rwm_dollar_emptyname, rwm_other m '{' _ (by decide),
                  rwm_other m '}' _ (by decide)]
                intro htok
                rcases containsToken_cons htok with ⟨_, nm2, s2, hsh, hne2, hnm2⟩ | htok2
                · rw [List.cons.injEq] at hsh
                  obtain ⟨_, hsh2⟩ := hsh
                  cases nm2 with
                  | nil => exact hne2 rfl
                  | cons q qs =>
                    rw [List.cons_append, List.cons.injEq] at hsh2
                    exact hnm2 (hsh2.1 ▸ List.mem_cons_self _ _)
                · rcases containsToken_cons htok2 with ⟨hfalse, _⟩ | htok3
                  · exact absurd hfalse (by decide)
                  · rcases containsToken_cons htok3 with ⟨hfalse, _⟩ | htok4
                    · exact absurd hfalse (by decide)
                    · refine ih rest' ?_ ?_ htok4
                      · simp at hl
                        omega
                      · intro nm2 hmem
                        refine H1 nm2 ?_
                        rw [phNames_dollar_emptyname, phNames_other '{' _ (by decide),
                          phNames_other '}' _ (by decide)]
                        exact hmem
              · subst he
                rw [rwm_tok m nm rest' hne hb]
                have hnmmem : nm ∈ phNames ('$' :: '{' :: (nm ++ '}' :: rest')) := by
                  rw [phNames_tok nm rest' hne hb]
                  exact List.mem_cons_self _ _
                have hsome := H1 nm hnmmem
                cases hlk : lookupStr m nm with
                | none => simp [hlk] at hsome
                | some v =>
                  simp only [Option.getD_some]
                  intro htok
                  rcases containsToken_append htok with hd | htok2
                  · exact absurd hd ((H2 (nm, v) (lookupStr_mem hlk)).2.1)
                  · refine ih rest' ?_ ?_ htok2
                    · simp at hl
                      omega
                    · intro nm2 hmem
                      refine H1 nm2 ?_
                      rw [phNames_tok nm rest' hne hb]
                      exact List.mem_cons_of_mem _ hmem
          · rw [rwm_dollar_nb m (c2 :: cs2) (by
              intro rest hr
              injection hr with hx
              exact h2 hx)]
            intro htok
            rcases containsToken_cons htok with ⟨_, nm2, s2, hsh, hne2, hnm2⟩ | htok2
            · have : (replaceWithMap m (c2 :: cs2)).head? = some '{' := by
                rw [hsh]
                simp
              have := rwm_head_brace m _ H2' this
              simp at this
              exact h2 this
            · refine ih (c2 :: cs2) ?_ ?_ htok2
              · simp at hl ⊢
                omega
              · intro nm2 hmem
                refine H1 nm2 ?_
                rw [phNames_dollar_nb (c2 :: cs2) (by
                  intro rest hr
                  injection hr with hx
                  exact h2 hx)]
                exact hmem
      · rw [rwm_other m c cs hc]
        intro htok
        rcases containsToken_cons htok with ⟨hfalse, _⟩ | htok2
        · exact hc hfalse
        · refine ih cs ?_ ?_ htok2
          · simp at hl
            omega
          · intro nm2 hmem
            refine H1 nm2 ?_
            rw [phNames_other c cs hc]
            exact hmem

theorem rwm_noResidual (m : List (List Char × List Char)) (l : List Char)
    (H1 : ∀ nm ∈ phNames l, (lookupStr m nm).isSome = true)
    (H2 : ∀ kv ∈ m, kv.2 ≠ [] ∧ '$' ∉ kv.2 ∧ '{' ∉ kv.2) :
    ¬ containsToken (replaceWithMap m l) :=
  rwm_noResidual_aux m H2 l.length l (Nat.le_refl _) H1

/-! ## Star normalization: lemmas and claim C8 -/

theorem headD_spacing_cases (left : List Char)
    (h1 : ¬(left ≠ [] ∧ left.headD ' ' ≠ ' ' ∧ left.headD ' ' ≠ '*')) :
    ∀ b ∈ left.head?, b = ' ' ∨ b = '*' := by
  cases left with
  | nil => simp
  | cons l0 ltl =>
    intro b hb
    simp at hb
    subst hb
    simp at h1
    by_cases hsp : l0 = ' '
    · left; exact hsp
    · right; exact h1 hsp

theorem trimStarsGo_chain (right : List Char) :
    ∀ left, List.Chain' (flip starSpacingOk) left →
      List.Chain' starSpacingOk (trimStarsGo left right) := by
  induction right with
  | nil =>
    intro left h
    rw [trimStarsGo]
    exact List.chain'_reverse.mpr h
  | cons c rest ih =>
    intro left h
    rw [trimStarsGo]
    by_cases hc : c = '*'
    · simp only [if_pos hc]
      by_cases h1 : left ≠ [] ∧ left.headD ' ' ≠ ' ' ∧ left.headD ' ' ≠ '*'
      · simp only [if_pos h1]
        refine ih _ ?_
        refine List.chain'_cons'.mpr ⟨?_, List.chain'_cons'.mpr ⟨?_, h⟩⟩
        · intro b hb
          simp at hb
          subst hb
          intro _
          left
          rfl
        · intro b hb hstar
          exact absurd hstar (by decide)
      · simp only [if_neg h1]
        have hpushstar : List.Chain' (flip starSpacingOk) ('*' :: left) := by
          refine List.chain'_cons'.mpr ⟨?_, h⟩
          intro b hb _
          exact headD_spacing_cases left h1 b hb
        by_cases h2 : rest ≠ [] ∧ rest.headD ' ' ≠ ' ' ∧ rest.headD ' ' ≠ '*'
        · simp only [if_pos h2]
          refine ih _ ?_
          refine List.chain'_cons'.mpr ⟨?_, hpushstar⟩
          intro b hb hstar
          exact absurd hstar (by decide)
        · simp only [if_neg h2]
          exact ih _ hpushstar
    · simp only [if_neg hc]
      refine ih _ ?_
      refine List.chain'_cons'.mpr ⟨?_, h⟩
      intro b hb hstar
      exact absurd hstar hc

/-- C8 (amended): the type-postfix text is normalized so that a `'*'` whose
preceding character is neither a space nor another `'*'` gets a space
inserted before it (and a star at the beginning, or one already preceded by
a space or star, gets a space after it when followed by neither); adjacent
stars are NOT separated, so every `'*'` in the result with a predecessor is
preceded by `' '` or `'*'`, and normalizing the pointer text `const T**`
yields `const T **` (not `const T * *`). -/
theorem claim_C8 :
    (∀ s : String, List.Chain' starSpacingOk (readTypePost s).data)
    ∧ readTypePost "const T**" = "const T **"
    ∧ trimStars "const T**" = "const T **" := by
  refine ⟨?_, by decide, by decide⟩
  intro s
  show List.Chain' starSpacingOk (trimStars (trimEnd s)).data
  exact trimStarsGo_chain (trimEnd s).data [] (by simp)

/-- C8 counterexample: the claim says `const T**` normalizes to
`const T * *` (a space between the two stars); the code yields
`const T **`, leaving adjacent stars together. -/
theorem claim_C8_counterexample :
    readTypePost "const T**" ≠ "const T * *"
    ∧ readTypePost "const T**" = "const T **" := by
  constructor
  · decide
  · decide

theorem except_bind_error {ε α β : Type} (e : ε) (f : α → Except ε β) :
    (Except.error e >>= f) = Except.error e := rfl

theorem except_bind_ok {ε α β : Type} (a : α) (f : α → Except ε β) :
    (Except.ok a >>= f) = f a := rfl

/-! ## Claim C9: command with zero <param> children -/

/-- C9 (amended): ingesting a command element with zero `<param>` children
does not crash, but it does abort the run: `checkElements` (called first,
line 7794, with `param` in the required map) raises the fatal located error
`missing required element <param>` before the parameter list is even built,
so the later `command <name> with no params` check of line 7829 is never the
error path taken on this input — indeed whenever `checkElements` passes and
one parameter is pushed per `<param>` child, that line-7829 guard cannot
fire.  No overloads are emitted for anything: ingestion stops with the
diagnostic. -/
theorem claim_C9 (m : RegModel) (line : Nat) (name : String) (cd : CommandData)
    (childValues : List String)
    (hcount : cd.params.length = childValues.count "param") :
    (childValues.count "param" = 0 →
      readCommandElement m line childValues name cd =
        .error ⟨line, "missing required element <param>"⟩)
    ∧ (checkElements line childValues commandRequiredElements = .ok () →
        cd.params ≠ []) := by
  constructor
  · intro hzero
    rw [readCommandElement, commandRequiredElements, checkElements, if_pos hzero,
      except_bind_error]
    rfl
  · intro hok hnil
    rw [commandRequiredElements, checkElements] at hok
    by_cases hc : childValues.count "param" = 0
    · rw [if_pos hc] at hok
      exact Except.noConfusion hok
    · rw [hnil] at hcount
      simp at hcount
      omega

/-- C9 counterexample: the claim says ingestion "does not abort the run";
on a concrete command element whose only child is the `<proto>` the reader
raises the fatal located error `missing required element <param>` instead of
continuing. -/
theorem claim_C9_counterexample :
    readCommandElement {} 5 ["proto"] "vkFoo2" {} =
      .error ⟨5, "missing required element <param>"⟩
    ∧ ∀ m2 : RegModel, readCommandElement {} 5 ["proto"] "vkFoo2" {} ≠ .ok m2 := by
  have he : readCommandElement {} 5 ["proto"] "vkFoo2" {} =
      .error ⟨5, "missing required element <param>"⟩ := by decide
  refine ⟨he, ?_⟩
  intro m2 hcontra
  rw [he] at hcontra
  exact Except.noConfusion hcontra

theorem claim_C9_witness :
    readCommandElement {} 6 ["proto"] "vkBaz" {} =
      .error ⟨6, "missing required element <param>"⟩ :=
  (claim_C9 {} 6 "vkBaz" {} ["proto"] (by decide)).1 (by decide)

/-! ## Claim C6: the shape-error path -/

/-- C6 (confirmed): when the classification of a command matches none of the
known overload shapes (no branch of the selection switch fires),
`appendCommand` logs "Never encountered a function like <name> !", emits no
overload block, raises no error, and returns normally, so generation of the
remaining commands continues. -/
theorem claim_C6 (g : Generator) (name : String) (cd : CommandData)
    (h : appendCommandCore g name cd = .ok none) :
    appendCommand g name cd =
      .ok ([], ["Never encountered a function like " ++ name ++ " !"]) := by
  rw [appendCommand, appendCommandAux, h]

theorem claim_C6_witness :
    appendCommand {} "vkFour"
      { returnType := "void",
        params := [{ type := ⟨"", "uint32_t", "*"⟩, name := "pA" },
                   { type := ⟨"", "uint32_t", "*"⟩, name := "pB" },
                   { type := ⟨"", "uint32_t", "*"⟩, name := "pC" },
                   { type := ⟨"", "uint32_t", "*"⟩, name := "pD" }] } =
      .ok ([], ["Never encountered a function like vkFour !"]) :=
  claim_C6 {} "vkFour" _ (by decide)

/-! ## Claim C5: extension disabling -/

/-- C5 (amended): reading an `<extension supported="disabled">` element acts
immediately, during the single document-order reading pass.  A named command
that currently exists is unlinked from its handle and erased (a missing
handle is a located error), but a name with no current command is silently
skipped, without any existence check; likewise a disabled type that is not
in `m_types` is silently skipped.  A disabled enum value is never removed:
the reader checks that the value was never added to the extended enum and
raises a located error when it is present.  Because of the single pass, the
resulting model depends on whether the declaration was read before the
disabling. -/
theorem claim_C5 :
    (∀ (line : Nat) (name : String) (m : RegModel),
      m.commands.find? (fun c => c.1 == name) = none →
      readExtensionDisabledCommand line name m = .ok m)
    ∧ (∀ (line : Nat) (name : String) (m : RegModel) c h,
        m.commands.find? (fun cc => cc.1 == name) = some c →
        m.handles.find? (fun hh => hh.1 == c.2) = some h →
        readExtensionDisabledCommand line name m =
          .ok { m with handles := updateHandle m.handles h.1 (h.2.erase name),
                       commands := m.commands.filter (fun cc => cc.1 ≠ name) })
    ∧ (∀ (ext : String) (line : Nat) (extendsAttr name : String) (m : RegModel) e,
        extendsAttr ≠ "" →
        m.enums.find? (fun ee => ee.1 == extendsAttr) = some e →
        (e.2.2.contains name = true →
          readExtensionDisabledEnum ext line extendsAttr name m =
            .error ⟨line, "disabled extension <" ++ ext ++ "> references known enum value <" ++
              name ++ ">"⟩)
        ∧ (e.2.2.contains name = false →
            readExtensionDisabledEnum ext line extendsAttr name m = .ok m))
    ∧ (∀ (line : Nat) (name : String) (m : RegModel),
        m.types.find? (fun t => t.1 == name) = none →
        readExtensionDisabledType line name m = .ok m) := by
  refine ⟨?_, ?_, ?_, ?_⟩
  · intro line name m hnone
    rw [readExtensionDisabledCommand, hnone]
  · intro line name m c h hc hh
    simp [readExtensionDisabledCommand, hc, hh]
  · intro ext line extendsAttr name m e hne he
    constructor
    · intro hmem
      rw [readExtensionDisabledEnum, if_pos hne, he]
      have : name ∈ e.2.2 := by simpa using hmem
      simp [this]
    · intro hmem
      rw [readExtensionDisabledEnum, if_pos hne, he]
      have : name ∉ e.2.2 := by simpa using hmem
      simp [this]
  · intro line name m hnone
    rw [readExtensionDisabledType, hnone]

/-- C5 counterexample: (i) disabling a command that was never declared is
silently accepted (no existence check); (ii) the removal is NOT a second
pass: reading the disabled extension before the command declaration leaves
the command in the model, reading it after removes it, so the result depends
on document order; (iii) a disabled enum value that exists is reported as an
error, not removed. -/
theorem claim_C5_counterexample :
    readExtensionDisabledCommand 7 "vkFoo" {} = .ok {}
    ∧ readRegistryItems { handles := [("", [])] }
        [RegItem.disabledCommandItem 5 "vkFoo",
         RegItem.commandItem 6 "vkFoo"
           ({ returnType := "void",
              params := [{ type := ⟨"", "uint32_t", ""⟩, name := "x" }] } : CommandData)] =
        .ok { commands := [("vkFoo", "")], handles := [("", ["vkFoo"])] }
    ∧ readRegistryItems { handles := [("", [])] }
        [RegItem.commandItem 6 "vkFoo"
           ({ returnType := "void",
              params := [{ type := ⟨"", "uint32_t", ""⟩, name := "x" }] } : CommandData),
         RegItem.disabledCommandItem 5 "vkFoo"] =
        .ok { handles := [("", [])] }
    ∧ ({ commands := [("vkFoo", "")], handles := [("", ["vkFoo"])] } : RegModel) ≠
        { handles := [("", [])] }
    ∧ readExtensionDisabledEnum "VK_EXT_x" 9 "VkEnumE" "VK_E_VAL"
        { enums := [("VkEnumE", ("", ["VK_E_VAL"]))] } =
        .error ⟨9, "disabled extension <VK_EXT_x> references known enum value <VK_E_VAL>"⟩ := by
  refine ⟨by decide, by decide, by decide, by decide, by decide⟩

theorem claim_C5_witness :
    readExtensionDisabledCommand 3 "vkBar" {} = .ok {} :=
  claim_C5.1 3 "vkBar" {} rfl

/-! ## Claim C3: the two-step (enumerate) body -/

/-- `resultEnumerateBodyTemplate` splits as prefix, do-while footer, suffix. -/
theorem re_split1 : resultEnumerateBodyTemplate = rePre1 ++ rePat1 ++ rePost1 := rfl

/-- The do-while footer occurs inside `resultEnumerateBodyTemplate`. -/
theorem re_infix1 : rePat1.data <:+: resultEnumerateBodyTemplate.data :=
  ⟨rePre1.data, rePost1.data, by rw [re_split1]; simp [String.data]⟩

/-- `resultEnumerateBodyTemplate` splits as prefix, trim block, suffix. -/
theorem re_split2 : resultEnumerateBodyTemplate = rePre2 ++ rePat2 ++ rePost2 := rfl

/-- The final trim block occurs inside `resultEnumerateBodyTemplate`. -/
theorem re_infix2 : rePat2.data <:+: resultEnumerateBodyTemplate.data :=
  ⟨rePre2.data, rePost2.data, by rw [re_split2]; simp [String.data]⟩

/-- C3 (confirmed): for a size-then-fill command with return type `VkResult`
and more than one success code, the selected enhanced body is the looping
template: it issues the wrapped call (`${call1}`, whose output-vector
argument is rendered `nullptr` on the first call of a two-step algorithm),
resizes the output buffer and re-issues the call (`${call2}`), repeats while
the call returned `Result::eIncomplete`, and finally trims the buffer to the
written count; for `void` commands the selected body is exactly the two
calls with the resize between them and no loop.  The enumerate overloads
emitted by `appendCommandVector` carry the same loop, trim, and no-loop
shapes in their body templates. -/
theorem claim_C3 :
    (∀ cd : CommandData, cd.returnType = "VkResult" → 1 < cd.successCodes.length →
      selectedTwoStepTemplate cd = multiSuccessTemplate)
    ∧ (∀ cd : CommandData, cd.returnType = "void" →
        selectedTwoStepTemplate cd = voidMultiCallTemplate)
    ∧ containsStr multiSuccessTemplate
        "${i}    result = static_cast<Result>( ${call1} );" = true
    ∧ containsStr multiSuccessTemplate
        "${i}      ${returnName}.resize( ${sizeName} );\n${i}      result = static_cast<Result>( ${call2} );" = true
    ∧ containsStr multiSuccessTemplate
        "\x7d while ( result == Result::eIncomplete );" = true
    ∧ containsStr multiSuccessTemplate
        "${i}  if ( result == Result::eSuccess )\n${i}  \x7b\n${i}    VULKAN_HPP_ASSERT( ${sizeName} <= ${returnName}.size() );\n${i}    ${returnName}.resize( ${sizeName} );" = true
    ∧ voidMultiCallTemplate =
        "${i}  ${call1};\n${i}  ${returnName}.resize( ${sizeName} );\n${i}  ${call2};\n"
    ∧ containsStr voidMultiCallTemplate "while" = false
    ∧ (∀ (i t : Nat) (p : ParamData), appendArgumentVector i p i t true true = "nullptr")
    ∧ containsStr resultEnumerateBodyTemplate
        "\x7d while ( result == Result::eIncomplete );" = true
    ∧ containsStr resultEnumerateBodyTemplate
        "if ( ( result == Result::eSuccess ) && ( ${counterName} < ${vectorName}.size() ) )\n    \x7b\n      ${vectorName}.resize( ${counterName} );" = true
    ∧ containsStr voidEnumerateBodyTemplate "while" = false
    ∧ containsStr voidEnumerateBodyTemplate
        "d.${vkCommand}( ${firstCallArguments} );\n    ${vectorName}.resize( ${counterName} );\n    d.${vkCommand}( ${secondCallArguments} );" = true := by
  refine ⟨?_, ?_, by decide, by decide, by decide, by decide, rfl, by decide, ?_,
    decide_eq_true re_infix1, decide_eq_true re_infix2, by decide, by decide⟩
  · intro cd h1 h2
    rw [selectedTwoStepTemplate]
    simp [h1, h2]
  · intro cd h1
    rw [selectedTwoStepTemplate]
    simp [h1]
  · intro i t p
    rw [appendArgumentVector]
    simp

theorem claim_C3_witness :
    selectedTwoStepTemplate
      { returnType := "VkResult", successCodes := ["VK_SUCCESS", "VK_INCOMPLETE"] } =
      multiSuccessTemplate
    ∧ selectedTwoStepTemplate { returnType := "void" } = voidMultiCallTemplate
    ∧ appendArgumentVector 2 { name := "pProperties" } 2 0 true true = "nullptr" :=
  ⟨claim_C3.1 _ rfl (by decide),
   claim_C3.2.1 _ rfl,
   (claim_C3.2.2.2.2.2.2.2.2.1) 2 0 { name := "pProperties" }⟩

/-! ## Claim C7: replaceWithMap -/

/-- C7 (amended): when the name inside every `${name}` placeholder of the
input is a key of the map, `replaceWithMap` passes every non-placeholder
character through and replaces each placeholder occurrence by its mapped
value; and provided additionally that every mapped value is nonempty and
contains neither `'$'` nor `'{'`, the result contains no residual `${...}`
token.  (Every map entry must be used by some placeholder: that is the
debug-build assertion over `phNames`, not a property of the release-mode
return value.) -/
theorem claim_C7 (m : List (List Char × List Char)) (input : List Char)
    (H1 : ∀ nm ∈ phNames input, (lookupStr m nm).isSome = true)
    (H2 : ∀ kv ∈ m, kv.2 ≠ [] ∧ '$' ∉ kv.2 ∧ '{' ∉ kv.2) :
    (∀ (c : Char) (cs : List Char), c ≠ '$' →
      replaceWithMap m (c :: cs) = c :: replaceWithMap m cs)
    ∧ (∀ nm v rest, nm ≠ [] → '}' ∉ nm → lookupStr m nm = some v →
        replaceWithMap m ('$' :: '{' :: (nm ++ '}' :: rest)) = v ++ replaceWithMap m rest)
    ∧ ¬ containsToken (replaceWithMap m input) := by
  refine ⟨rwm_other m, ?_, rwm_noResidual m input H1 H2⟩
  intro nm v rest h1 h2 h3
  rw [rwm_tok m nm rest h1 h2, h3]
  rfl

unseal phNames in
theorem claim_C7_witness :
    (∀ (c : Char) (cs : List Char), c ≠ '$' →
      replaceWithMap [([ 'k' ], [ 'X' ])] (c :: cs) =
        c :: replaceWithMap [([ 'k' ], [ 'X' ])] cs)
    ∧ (∀ nm v rest, nm ≠ [] → '}' ∉ nm →
        lookupStr [([ 'k' ], [ 'X' ])] nm = some v →
        replaceWithMap [([ 'k' ], [ 'X' ])] ('$' :: '{' :: (nm ++ '}' :: rest)) =
          v ++ replaceWithMap [([ 'k' ], [ 'X' ])] rest)
    ∧ ¬ containsToken (replaceWithMap [([ 'k' ], [ 'X' ])] [ '$', '{', 'k', '}', 'a' ]) :=
  claim_C7 [([ 'k' ], [ 'X' ])] [ '$', '{', 'k', '}', 'a' ] (by decide) (by decide)

/- C7 counterexample: three inputs on which every placeholder name is a key
of the map and no mapped value contains a `${...}` token, yet the
substituted result contains a residual token, formed across a boundary:
a value containing `'{'`, a value containing `'$'`, and an empty value. -/
unseal phNames replaceWithMap in
theorem claim_C7_counterexample :
    ((∀ nm ∈ phNames [ '$', '$', '{', 'a', '}' ],
        (lookupStr [([ 'a' ], [ '{', 'b', '}' ])] nm).isSome = true)
      ∧ (∀ kv ∈ [([ 'a' ], [ '{', 'b', '}' ])], ¬ containsToken kv.2)
      ∧ containsToken (replaceWithMap [([ 'a' ], [ '{', 'b', '}' ])] [ '$', '$', '{', 'a', '}' ]))
    ∧ ((∀ nm ∈ phNames [ '$', '{', 'a', '}', '{', 'x', '}' ],
        (lookupStr [([ 'a' ], [ '$' ])] nm).isSome = true)
      ∧ (∀ kv ∈ [([ 'a' ], [ '$' ])], ¬ containsToken kv.2)
      ∧ containsToken (replaceWithMap [([ 'a' ], [ '$' ])] [ '$', '{', 'a', '}', '{', 'x', '}' ]))
    ∧ ((∀ nm ∈ phNames [ '$', '$', '{', 'a', '}', '{', 'x', '}' ],
        (lookupStr [([ 'a' ], ([] : List Char))] nm).isSome = true)
      ∧ (∀ kv ∈ [([ 'a' ], ([] : List Char))], ¬ containsToken kv.2)
      ∧ containsToken
          (replaceWithMap [([ 'a' ], ([] : List Char))] [ '$', '$', '{', 'a', '}', '{', 'x', '}' ])) := by
  refine ⟨⟨by decide, ?_, ?_⟩, ⟨by decide, ?_, ?_⟩, ⟨by decide, ?_, ?_⟩⟩
  · intro kv hkv htok
    simp at hkv
    have := containsToken_dollar htok
    subst hkv
    simp at this
  · have he : replaceWithMap [([ 'a' ], [ '{', 'b', '}' ])] [ '$', '$', '{', 'a', '}' ] =
        [ '$', '{', 'b', '}' ] := by decide
    rw [he]
    exact ⟨[], [ 'b' ], [], rfl, by decide, by decide⟩
  · intro kv hkv htok
    simp at hkv
    have := containsToken_brace htok
    subst hkv
    simp at this
  · have he : replaceWithMap [([ 'a' ], [ '$' ])] [ '$', '{', 'a', '}', '{', 'x', '}' ] =
        [ '$', '{', 'x', '}' ] := by decide
    rw [he]
    exact ⟨[], [ 'x' ], [], rfl, by decide, by decide⟩
  · intro kv hkv htok
    simp at hkv
    subst hkv
    exact not_containsToken_nil htok
  · have he : replaceWithMap [([ 'a' ], ([] : List Char))] [ '$', '$', '{', 'a', '}', '{', 'x', '}' ] =
        [ '$', '{', 'x', '}' ] := by decide
    rw [he]
    exact ⟨[], [ 'x' ], [], rfl, by decide, by decide⟩

/-! ## Claim C2: vector parameter classification -/

theorem firstMatch_some_iff (pred : ParamData → Bool) (l : List ParamData) (j : Nat) :
    firstMatch pred l = some j ↔
      (j < l.length ∧ pred (l.getD j default) = true ∧
        ∀ k, k < j → pred (l.getD k default) = false) := by
  induction l generalizing j with
  | nil => simp [firstMatch]
  | cons p ps ih =>
    rw [firstMatch]
    by_cases hp : pred p
    · simp only [if_pos hp]
      constructor
      · intro h
        injection h with h
        subst h
        exact ⟨by simp, by simpa using hp, by omega⟩
      · intro ⟨h1, h2, h3⟩
        cases j with
        | zero => rfl
        | succ j2 =>
          have := h3 0 (by omega)
          simp at this
          exact absurd hp (by simp [this])
    · simp only [if_neg hp]
      constructor
      · intro h
        simp at h
        obtain ⟨j2, hj2, hj⟩ := h
        subst hj
        obtain ⟨h1, h2, h3⟩ := (ih j2).mp hj2
        refine ⟨by simpa using h1, by simpa using h2, ?_⟩
        intro k hk
        cases k with
        | zero => simpa using hp
        | succ k2 => simpa using h3 k2 (by omega)
      · intro ⟨h1, h2, h3⟩
        cases j with
        | zero => simp at h2; exact absurd h2 hp
        | succ j2 =>
          simp
          refine (ih j2).mpr ⟨by simpa using h1, by simpa using h2, ?_⟩
          intro k hk
          simpa using h3 (k + 1) (by omega)

theorem getD_take (l : List ParamData) (i k : Nat) (h : k < i) :
    (l.take i).getD k default = l.getD k default := by
  rw [List.getD_eq_getElem?_getD, List.getD_eq_getElem?_getD, List.getElem?_take]
  simp [h]

/-- C2 (amended): `determineVectorParamIndicesNew` classifies parameter `p`
as a vector exactly when `p`'s `len` is nonempty and some strictly earlier
parameter `q` matches it, either because `q.name` equals the `len` text or
because the `len` text is a struct-member path `q->m` (or `q::m`); the
lengthIndex recorded for `p` is the index of the FIRST such earlier
parameter in both cases — also for struct-member paths — and the invalid
sentinel is never recorded (membership of the struct field is only a
debug-build assertion, not part of the classification). -/
theorem claim_C2 (params : List ParamData) (i j : Nat) :
    ((i, j) ∈ determineVectorParamIndicesNew params ↔
      (i < params.length ∧ (params.getD i default).len ≠ "" ∧ j < i ∧
        lenMatches (params.getD i default).len (params.getD j default) = true ∧
        ∀ k, k < j → lenMatches (params.getD i default).len (params.getD k default) = false))
    ∧ (params.length ≤ INVALID_INDEX →
        (i, j) ∈ determineVectorParamIndicesNew params → j ≠ INVALID_INDEX) := by
  have main : (i, j) ∈ determineVectorParamIndicesNew params ↔
      (i < params.length ∧ (params.getD i default).len ≠ "" ∧ j < i ∧
        lenMatches (params.getD i default).len (params.getD j default) = true ∧
        ∀ k, k < j → lenMatches (params.getD i default).len (params.getD k default) = false) := by
    rw [determineVectorParamIndicesNew, List.mem_filterMap]
    constructor
    · intro ⟨a, ha, hfa⟩
      rw [List.mem_range] at ha
      by_cases hlen : (params.getD a default).len = ""
      · rw [List.getD_eq_getElem?_getD] at hlen
        simp [hlen] at hfa
      · simp only [if_neg hlen] at hfa
        cases hfm : firstMatch (fun pd => lenMatches (params.getD a default).len pd)
            (params.take a) with
        | none => rw [hfm] at hfa; simp at hfa
        | some j2 =>
          rw [hfm] at hfa
          simp at hfa
          obtain ⟨hai, hjj⟩ := hfa
          subst hai
          subst hjj
          obtain ⟨h1, h2, h3⟩ := (firstMatch_some_iff _ _ _).mp hfm
          rw [List.length_take] at h1
          have hji : j2 < a := by omega
          refine ⟨ha, hlen, hji, ?_, ?_⟩
          · rw [getD_take params a j2 hji] at h2
            exact h2
          · intro k hk
            have := h3 k hk
            rw [getD_take params a k (by omega)] at this
            exact this
    · intro ⟨h1, h2, h3, h4, h5⟩
      refine ⟨i, List.mem_range.mpr h1, ?_⟩
      simp only [if_neg h2]
      have : firstMatch (fun pd => lenMatches (params.getD i default).len pd)
          (params.take i) = some j := by
        refine (firstMatch_some_iff _ _ _).mpr ⟨?_, ?_, ?_⟩
        · rw [List.length_take]
          omega
        · rw [getD_take params i j h3]
          exact h4
        · intro k hk
          rw [getD_take params i k (by omega)]
          exact h5 k hk
      rw [this]
  refine ⟨main, ?_⟩
  intro hlen hmem
  have := (main.mp hmem)
  rw [INVALID_INDEX] at hlen ⊢
  omega

/-- C2 counterexample: for a parameter whose `len` is the struct-member path
`q->m` (with `q` the first parameter, of struct type `VkInfo`), the claim
says the recorded lengthIndex is the invalid sentinel; the code records the
index of `q` itself (here 0). -/
theorem claim_C2_counterexample :
    determineVectorParamIndicesNew
        [{ type := ⟨"", "VkInfo", ""⟩, name := "q" },
         { type := ⟨"const", "VkFoo", "*"⟩, name := "pItems", len := "q->m" }] = [(1, 0)]
    ∧ isLenByStructMember "q->m" { type := ⟨"", "VkInfo", ""⟩, name := "q" } = true
    ∧ (1, INVALID_INDEX) ∉ determineVectorParamIndicesNew
        [{ type := ⟨"", "VkInfo", ""⟩, name := "q" },
         { type := ⟨"const", "VkFoo", "*"⟩, name := "pItems", len := "q->m" }] := by
  refine ⟨by decide, by decide, ?_⟩
  intro hmem
  have he : determineVectorParamIndicesNew
      [{ type := ⟨"", "VkInfo", ""⟩, name := "q" },
       { type := ⟨"const", "VkFoo", "*"⟩, name := "pItems", len := "q->m" }] = [(1, 0)] := by decide
  rw [he] at hmem
  simp at hmem
  have : (0 : Nat) < 2 ^ 64 - 1 := by norm_num
  rw [INVALID_INDEX] at hmem
  omega

theorem claim_C2_witness :
    (1, 0) ∈ determineVectorParamIndicesNew
        [{ type := ⟨"", "uint32_t", ""⟩, name := "count" },
         { type := ⟨"const", "VkBar", "*"⟩, name := "pBars", len := "count" }]
    ∧ (0 : Nat) ≠ INVALID_INDEX := by
  constructor
  · exact (claim_C2 _ 1 0).1.mpr (by decide)
  · exact (claim_C2 [{ type := ⟨"", "uint32_t", ""⟩, name := "count" },
      { type := ⟨"const", "VkBar", "*"⟩, name := "pBars", len := "count" }] 1 0).2
      (by decide) ((claim_C2 _ 1 0).1.mpr (by decide))

/-! ## Claim C4: sType cross-reference validation -/

theorem addSTypeValues_ok_char (line : Nat) (vs : List String) :
    ∀ acc r, acc.Nodup → addSTypeValues acc line vs = .ok r →
      r = acc ++ vs ∧ r.Nodup := by
  induction vs with
  | nil =>
    intro acc r hacc h
    rw [addSTypeValues] at h
    injection h with h
    subst h
    simp [hacc]
  | cons v vs ih =>
    intro acc r hacc h
    rw [addSTypeValues] at h
    by_cases hv : acc.contains v
    · have hm : v ∈ acc := by simpa using hv
      simp [hm] at h
    · simp only [hv, Bool.false_eq_true, if_neg, ite_false] at h
      have hvm : v ∉ acc := by simpa using hv
      have hacc2 : (acc ++ [v]).Nodup := by
         simp [List.nodup_append, hacc, hvm]
      obtain ⟨h1, h2⟩ := ih (acc ++ [v]) r hacc2 h
      refine ⟨?_, h2⟩
      rw [h1]
      simp

theorem addSTypeValues_ok (line : Nat) (vs : List String) :
    ∀ acc, (acc ++ vs).Nodup → addSTypeValues acc line vs = .ok (acc ++ vs) := by
  induction vs with
  | nil =>
    intro acc h
    rw [addSTypeValues]
    simp
  | cons v vs ih =>
    intro acc h
    rw [addSTypeValues]
    have hvm : v ∉ acc := by
      rw [List.nodup_append] at h
      intro hc
      exact h.2.2 hc (by simp)
    rw [if_neg (by simpa using hvm)]
    have h2 : ((acc ++ [v]) ++ vs).Nodup := by rw [← List.append_cons]; exact h
    simpa using ih (acc ++ [v]) h2

theorem collectSTypeValues_ok_char (structs : List (Nat × List String)) :
    ∀ acc r, acc.Nodup → collectSTypeValues acc structs = .ok r →
      r = acc ++ allSTypeValues structs ∧ r.Nodup := by
  induction structs with
  | nil =>
    intro acc r hacc h
    rw [collectSTypeValues] at h
    injection h with h
    subst h
    simp [allSTypeValues, hacc]
  | cons st rest ih =>
    intro acc r hacc h
    obtain ⟨line, vs⟩ := st
    rw [collectSTypeValues] at h
    cases ha : addSTypeValues acc line vs with
    | error e => rw [ha, except_bind_error] at h; exact Except.noConfusion h
    | ok acc2 =>
      rw [ha, except_bind_ok] at h
      obtain ⟨he, hn⟩ := addSTypeValues_ok_char line vs acc acc2 hacc ha
      obtain ⟨h1, h2⟩ := ih acc2 r hn h
      refine ⟨?_, h2⟩
      rw [h1, he, allSTypeValues]
      simp [allSTypeValues, List.append_assoc]

theorem collectSTypeValues_ok (structs : List (Nat × List String)) :
    ∀ acc, (acc ++ allSTypeValues structs).Nodup →
      collectSTypeValues acc structs = .ok (acc ++ allSTypeValues structs) := by
  induction structs with
  | nil =>
    intro acc h
    rw [collectSTypeValues]
    simp [allSTypeValues]
  | cons st rest ih =>
    intro acc h
    obtain ⟨line, vs⟩ := st
    rw [collectSTypeValues]
    have hsplit : acc ++ allSTypeValues ((line, vs) :: rest) =
        (acc ++ vs) ++ allSTypeValues rest := by
      simp [allSTypeValues]
    rw [hsplit] at h
    have hvs : (acc ++ vs).Nodup := by
      rw [List.nodup_append] at h
      exact h.1
    rw [addSTypeValues_ok line vs acc hvs, except_bind_ok]
    rw [ih (acc ++ vs) h, hsplit]

theorem checkSTypeEnumValues_ok_iff (evs : List (Nat × String)) :
    ∀ s, s.Nodup → (evs.map (fun p => p.2)).Nodup →
      (checkSTypeEnumValues s evs = .ok () ↔
        ∀ p ∈ evs, (reservedSTypes.contains p.2 = true → p.2 ∉ s) ∧
          (reservedSTypes.contains p.2 = false → p.2 ∈ s)) := by
  induction evs with
  | nil =>
    intro s hs hn
    rw [checkSTypeEnumValues]
    simp
  | cons ev rest ih =>
    intro s hs hn
    obtain ⟨line, v⟩ := ev
    rw [checkSTypeEnumValues]
    simp only [List.map_cons, List.nodup_cons] at hn
    obtain ⟨hv, hn2⟩ := hn
    by_cases hres : reservedSTypes.contains v
    · rw [if_pos hres]
      by_cases hvs : s.contains v
      · rw [if_pos hvs]
        constructor
        · intro h
          exact absurd h (by simp)
        · intro h
          have := ((h (line, v) (by simp)).1 hres)
          exact absurd (by simpa using hvs) this
      · rw [if_neg hvs]
        rw [ih s hs hn2]
        constructor
        · intro h
          intro p hp
          rcases List.mem_cons.mp hp with hp1 | hp2
          · subst hp1
            refine ⟨fun _ => by simpa using hvs, fun hcon => ?_⟩
            rw [hres] at hcon
            exact absurd hcon (by simp)
          · exact h p hp2
        · intro h p hp
          exact h p (List.mem_cons_of_mem _ hp)
    · rw [if_neg hres]
      by_cases hvs : s.contains v
      · rw [if_pos hvs]
        have hvmem : v ∈ s := by simpa using hvs
        rw [ih (s.erase v) (hs.erase v) hn2]
        constructor
        · intro h p hp
          rcases List.mem_cons.mp hp with hp1 | hp2
          · subst hp1
            simp only [hres]
            exact ⟨fun hcon => absurd hcon (by simp), fun _ => hvmem⟩
          · have hpne : p.2 ≠ v := by
              intro hcon
              exact hv (hcon ▸ List.mem_map.mpr ⟨p, hp2, rfl⟩)
            have := h p hp2
            constructor
            · intro hr
              have := this.1 hr
              intro hcon
              exact this ((List.mem_erase_of_ne hpne).mpr hcon)
            · intro hnr
              have := this.2 hnr
              exact (List.mem_erase_of_ne hpne).mp this
        · intro h p hp
          have hpne : p.2 ≠ v := by
            intro hcon
            exact hv (hcon ▸ List.mem_map.mpr ⟨p, hp, rfl⟩)
          have := h p (List.mem_cons_of_mem _ hp)
          constructor
          · intro hr
            have := this.1 hr
            intro hcon
            exact this ((List.mem_erase_of_ne hpne).mp hcon)
          · intro hnr
            exact (List.mem_erase_of_ne hpne).mpr (this.2 hnr)
      · rw [if_neg hvs]
        constructor
        · intro h
          exact absurd h (by simp)
        · intro h
          have := (h (line, v) (by simp)).2 (by simpa using hres)
          exact absurd (by simpa using hvs) (by simp [this])

/-- C4 (amended): the sType validation of `checkCorrectness` passes exactly
when no sType value is used twice among the structs (whether by two structs
or twice by one), no struct uses one of the two reserved loader values, and
every non-reserved `VkStructureType` value is used by at least one (hence,
with no duplicates, exactly one) struct.  Equivalently, it raises a located
error iff a value is duplicated, a reserved value is used, or a non-reserved
value is unused — the claim's "iff" misses the reserved-value-used error. -/
theorem claim_C4 (structs : List (Nat × List String)) (enumValues : List (Nat × String))
    (henum : (enumValues.map (fun p => p.2)).Nodup) :
    checkSTypeCorrectness structs enumValues = .ok () ↔
      ((allSTypeValues structs).Nodup ∧
        ∀ p ∈ enumValues,
          (reservedSTypes.contains p.2 = true → p.2 ∉ allSTypeValues structs) ∧
          (reservedSTypes.contains p.2 = false → p.2 ∈ allSTypeValues structs)) := by
  rw [checkSTypeCorrectness]
  cases hc : collectSTypeValues [] structs with
  | error e =>
    rw [except_bind_error]
    constructor
    · intro h
      exact Except.noConfusion h
    · intro ⟨h1, h2⟩
      have := collectSTypeValues_ok structs [] (by simpa using h1)
      rw [this] at hc
      exact Except.noConfusion hc
  | ok sv =>
    rw [except_bind_ok]
    obtain ⟨h1, h2⟩ := collectSTypeValues_ok_char structs [] sv (by simp) hc
    simp at h1
    subst h1
    rw [checkSTypeEnumValues_ok_iff enumValues _ h2 henum]
    constructor
    · intro h
      exact ⟨h2, h⟩
    · intro h
      exact h.2

/-- C4 counterexample: a struct using the reserved loader value
`VK_STRUCTURE_TYPE_LOADER_INSTANCE_CREATE_INFO`, with that value also in the
`VkStructureType` enum.  No sType value appears in two structs and no
non-reserved value is unused, so the claim says validation passes; the code
raises the located "Reserved ... is used" error. -/
theorem claim_C4_counterexample :
    checkSTypeCorrectness [(1, ["VK_STRUCTURE_TYPE_LOADER_INSTANCE_CREATE_INFO"])]
        [(2, "VK_STRUCTURE_TYPE_LOADER_INSTANCE_CREATE_INFO")] =
      .error ⟨2, "Reserved <STRUCT_PREFIX>StructureType enum value <VK_STRUCTURE_TYPE_LOADER_INSTANCE_CREATE_INFO> is used"⟩
    ∧ (allSTypeValues [(1, ["VK_STRUCTURE_TYPE_LOADER_INSTANCE_CREATE_INFO"])]).Nodup
    ∧ (∀ p ∈ [((2 : Nat), "VK_STRUCTURE_TYPE_LOADER_INSTANCE_CREATE_INFO")],
        reservedSTypes.contains p.2 = true) := by
  refine ⟨by decide, by decide, by decide⟩

theorem claim_C4_witness :
    checkSTypeCorrectness [(1, ["VK_STRUCTURE_TYPE_A"])] [(3, "VK_STRUCTURE_TYPE_A")] =
      .ok () :=
  (claim_C4 [(1, ["VK_STRUCTURE_TYPE_A"])] [(3, "VK_STRUCTURE_TYPE_A")] (by decide)).mpr
    (by decide)

/-! ## Claim C1: zero return-parameter commands -/

theorem mapError_ok_iff {e f a : Type} (g : e → f) (x : Except e a) (v : a) :
    x.mapError g = .ok v ↔ x = .ok v := by
  cases x <;> simp [Except.mapError]

theorem appendCommand_ok_noalias (g : Generator) (nm : String) (cd : CommandData)
    (k : ShapeKind) (halias : cd.aliasData = [])
    (h : appendCommandCore g nm cd = .ok (some k)) :
    appendCommand g nm cd = .ok ([⟨nm, k, cd.feature, cd.extensions, cd.xmlLine⟩], []) := by
  rw [appendCommand, appendCommandAux, h, halias]
  rfl

theorem appendCommand_err (g : Generator) (nm : String) (cd : CommandData) (e : String)
    (h : appendCommandCore g nm cd = .error e) :
    appendCommand g nm cd = .error e := by
  rw [appendCommand, appendCommandAux, h]

theorem coreShape_zero (g : Generator) (b : Bool) (params : List ParamData) (rt : String)
    (hncp : determineNonConstPointerParamIndices params = []) :
    coreShape g b params rt =
      if (determineVectorParamIndicesNew params).isEmpty &&
          (determineConstPointerParamIndices params).all
            (fun i => (params.getD i default).type.type == "void") then
        (if rt == "VkResult" then .ok (some .standardOrEnhanced) else .ok (some .standard))
      else if rt == "void" then .ok (some .standardAndEnhanced)
      else if rt == "VkResult" then
        match determineVectorParamIndicesNew params with
        | [] => .ok (some .standardAndEnhanced)
        | [_] => .ok (some .standardAndEnhanced)
        | [(_, l0), (_, l1)] =>
          if l0 != INVALID_INDEX && l0 == l1 && (params.getD l0 default).type.isValue then
            .ok (some .standardAndEnhanced)
          else .error ()
        | _ => .error ()
      else if (determineVectorParamIndicesNew params).isEmpty then
        .ok (some .standardAndEnhanced)
      else .error () := by
  rw [coreShape]
  rw [hncp]

theorem appendCommandCore_zero_plain (g : Generator) (nm : String) (cd : CommandData)
    (hncp : determineNonConstPointerParamIndices cd.params = [])
    (hplain : zeroReturnPlainCase cd = true) :
    appendCommandCore g nm cd =
      .ok (some (if cd.returnType == "VkResult" then .standardOrEnhanced else .standard)) := by
  rw [appendCommandCore, coreShape_zero g (beginsWith nm "vkGet") cd.params cd.returnType hncp]
  rw [zeroReturnPlainCase] at hplain
  rw [if_pos hplain]
  cases hR : cd.returnType == "VkResult" <;> simp [hR, Except.mapError]

theorem appendCommandCore_zero_enh (g : Generator) (nm : String) (cd : CommandData)
    (hncp : determineNonConstPointerParamIndices cd.params = [])
    (hplain : zeroReturnPlainCase cd = false)
    (henh : zeroReturnEnhancedOk cd = true) :
    appendCommandCore g nm cd = .ok (some .standardAndEnhanced) := by
  rw [appendCommandCore, coreShape_zero g (beginsWith nm "vkGet") cd.params cd.returnType hncp]
  rw [zeroReturnPlainCase] at hplain
  rw [if_neg (by rw [hplain]; decide)]
  rw [zeroReturnEnhancedOk] at henh
  by_cases hV : (cd.returnType == "void") = true
  · rw [if_pos hV]
    rfl
  · rw [if_neg hV]
    rw [if_neg hV] at henh
    by_cases hR : (cd.returnType == "VkResult") = true
    · rw [if_pos hR]
      rw [if_pos hR] at henh
      cases hvpi : determineVectorParamIndicesNew cd.params with
      | nil => rfl
      | cons x xs =>
        rw [hvpi] at henh
        cases xs with
        | nil => rfl
        | cons y ys =>
          cases ys with
          | nil =>
            obtain ⟨v0, l0⟩ := x
            obtain ⟨v1, l1⟩ := y
            have hc : (l0 != INVALID_INDEX && l0 == l1 &&
              (cd.params.getD l0 default).type.isValue) = true := henh
            show Except.mapError (fun x => "Never encountered a function like " ++ nm ++ " !")
                (if (l0 != INVALID_INDEX && l0 == l1 &&
                    (cd.params.getD l0 default).type.isValue) = true then
                  Except.ok (some ShapeKind.standardAndEnhanced) else Except.error ()) =
              Except.ok (some ShapeKind.standardAndEnhanced)
            rw [if_pos hc]
            rfl
          | cons z zs =>
            exact absurd (show false = true from henh) (by decide)
    · rw [if_neg hR]
      rw [if_neg hR] at henh
      rw [if_pos henh]
      rfl

theorem appendCommandCore_zero_err (g : Generator) (nm : String) (cd : CommandData)
    (hncp : determineNonConstPointerParamIndices cd.params = [])
    (hplain : zeroReturnPlainCase cd = false)
    (henh : zeroReturnEnhancedOk cd = false) :
    appendCommandCore g nm cd =
      .error ("Never encountered a function like " ++ nm ++ " !") := by
  rw [appendCommandCore, coreShape_zero g (beginsWith nm "vkGet") cd.params cd.returnType hncp]
  rw [zeroReturnPlainCase] at hplain
  rw [if_neg (by rw [hplain]; decide)]
  rw [zeroReturnEnhancedOk] at henh
  by_cases hV : (cd.returnType == "void") = true
  · rw [if_pos hV] at henh
    exact absurd (show true = false from henh) (by decide)
  · rw [if_neg hV]
    rw [if_neg hV] at henh
    by_cases hR : (cd.returnType == "VkResult") = true
    · rw [if_pos hR]
      rw [if_pos hR] at henh
      cases hvpi : determineVectorParamIndicesNew cd.params with
      | nil => rw [hvpi] at henh; exact absurd (show true = false from henh) (by decide)
      | cons x xs =>
        rw [hvpi] at henh
        cases xs with
        | nil => exact absurd (show true = false from henh) (by decide)
        | cons y ys =>
          cases ys with
          | nil =>
            obtain ⟨v0, l0⟩ := x
            obtain ⟨v1, l1⟩ := y
            have hc : (l0 != INVALID_INDEX && l0 == l1 &&
              (cd.params.getD l0 default).type.isValue) = false := henh
            show Except.mapError (fun x => "Never encountered a function like " ++ nm ++ " !")
                (if (l0 != INVALID_INDEX && l0 == l1 &&
                    (cd.params.getD l0 default).type.isValue) = true then
                  Except.ok (some ShapeKind.standardAndEnhanced) else Except.error ()) =
              Except.error ("Never encountered a function like " ++ nm ++ " !")
            rw [if_neg (by rw [hc]; decide)]
            rfl
          | cons z zs => rfl
    · rw [if_neg hR]
      rw [if_neg hR] at henh
      rw [if_neg (by simp [henh])]
      rfl

/-- C1 (amended): for an alias-free command with zero return-parameter
candidates, `appendCommand` emits the standard-or-enhanced pair when there is
no vector parameter and no non-void const-pointer parameter and the return
type is `VkResult`, the standard overload alone in that case for any other
return type, and the standard-and-enhanced block in the remaining cases ONLY
when the enhanced construction of `appendCommandStandardAndEnhanced` covers
the shape; in the remaining zero-return-parameter cases (a `VkResult` command
with an uncollapsible vector-parameter pattern, or a non-`VkResult`,
non-`void` command with vector parameters) nothing is emitted: the function
throws "Never encountered a function like <name> !" (line 1489), the run
aborts.  The claim's "in every other zero-return-parameter case, both the
standard and the enhanced overload" is wrong for those shapes. -/
theorem claim_C1 (g : Generator) (nm : String) (cd : CommandData)
    (hncp : determineNonConstPointerParamIndices cd.params = [])
    (halias : cd.aliasData = []) :
    (zeroReturnPlainCase cd = true →
      appendCommand g nm cd = .ok
        ([⟨nm, if cd.returnType == "VkResult" then .standardOrEnhanced else .standard,
            cd.feature, cd.extensions, cd.xmlLine⟩], []))
    ∧ (zeroReturnPlainCase cd = false → zeroReturnEnhancedOk cd = true →
        appendCommand g nm cd = .ok
          ([⟨nm, .standardAndEnhanced, cd.feature, cd.extensions, cd.xmlLine⟩], []))
    ∧ (zeroReturnPlainCase cd = false → zeroReturnEnhancedOk cd = false →
        appendCommand g nm cd = .error ("Never encountered a function like " ++ nm ++ " !")) := by
  refine ⟨?_, ?_, ?_⟩
  · intro hplain
    exact appendCommand_ok_noalias g nm cd _ halias
      (appendCommandCore_zero_plain g nm cd hncp hplain)
  · intro hplain henh
    exact appendCommand_ok_noalias g nm cd _ halias
      (appendCommandCore_zero_enh g nm cd hncp hplain henh)
  · intro hplain henh
    exact appendCommand_err g nm cd _
      (appendCommandCore_zero_err g nm cd hncp hplain henh)

/- C1 counterexample: a zero-return-parameter command with a const-pointer
vector parameter and return type `uint64_t`.  The claim promises the
standard-and-enhanced block; the code throws. -/
theorem claim_C1_counterexample :
    determineNonConstPointerParamIndices
        [{ type := ⟨"", "uint32_t", ""⟩, name := "count" },
         { type := ⟨"const", "VkFoo", "*"⟩, name := "pItems", len := "count" }] = []
    ∧ zeroReturnPlainCase
        { returnType := "uint64_t",
          params := [{ type := ⟨"", "uint32_t", ""⟩, name := "count" },
                     { type := ⟨"const", "VkFoo", "*"⟩, name := "pItems", len := "count" }] } = false
    ∧ appendCommand {} "vkWeird"
        { returnType := "uint64_t",
          params := [{ type := ⟨"", "uint32_t", ""⟩, name := "count" },
                     { type := ⟨"const", "VkFoo", "*"⟩, name := "pItems", len := "count" }] } =
        .error "Never encountered a function like vkWeird !" := by
  refine ⟨by decide, by decide, by decide⟩

theorem claim_C1_witness :
    appendCommand {} "vkFlushThing"
        { returnType := "VkResult",
          params := [{ type := ⟨"", "uint32_t", ""⟩, name := "x" }] } =
      .ok ([⟨"vkFlushThing", .standardOrEnhanced, "", [], 0⟩], []) := by
  have h := (claim_C1 {} "vkFlushThing"
      { returnType := "VkResult",
        params := [{ type := ⟨"", "uint32_t", ""⟩, name := "x" }] }
      (by decide) (by decide)).1 (by decide)
  exact h

/-! ## Claim C10: the alias recursion of appendCommand -/

theorem except_pure_bind {e a b : Type} (x : a) (g : a → Except e b) :
    ((pure x : Except e a) >>= g) = g x := rfl

theorem aliasFold_ok (g : Generator) (cd : CommandData) (k : ShapeKind) :
    ∀ (l : List (String × AliasInfo)) (acc : List Block × List String),
      (∀ ad ∈ l, appendCommandAux g 1 ad.1
          { cd with aliasData := [], extensions := ad.2.extensions,
                    feature := ad.2.feature, xmlLine := ad.2.xmlLine } =
          .ok ([⟨ad.1, k, ad.2.feature, ad.2.extensions, ad.2.xmlLine⟩], [])) →
      l.foldlM (fun acc ad => do
          let sub ← appendCommandAux g 1 ad.1
            { cd with aliasData := [], extensions := ad.2.extensions,
                      feature := ad.2.feature, xmlLine := ad.2.xmlLine }
          pure (acc.1 ++ sub.1, acc.2 ++ sub.2)) acc =
        .ok (acc.1 ++ l.map (fun ad =>
          (⟨ad.1, k, ad.2.feature, ad.2.extensions, ad.2.xmlLine⟩ : Block)), acc.2) := by
  intro l
  induction l with
  | nil =>
    intro acc hsub
    simp only [List.foldlM_nil, List.map_nil, List.append_nil]
    rfl
  | cons ad rest ih =>
    intro acc hsub
    simp only [List.foldlM_cons]
    rw [hsub ad (by simp)]
    show List.foldlM (fun acc ad => do
        let sub ← appendCommandAux g 1 ad.1
          { cd with aliasData := [], extensions := ad.2.extensions,
                    feature := ad.2.feature, xmlLine := ad.2.xmlLine }
        pure (acc.1 ++ sub.1, acc.2 ++ sub.2))
      (acc.1 ++ [⟨ad.1, k, ad.2.feature, ad.2.extensions, ad.2.xmlLine⟩], acc.2 ++ []) rest =
      Except.ok (acc.1 ++ ((⟨ad.1, k, ad.2.feature, ad.2.extensions, ad.2.xmlLine⟩ : Block) ::
        rest.map (fun a =>
          (⟨a.1, k, a.2.feature, a.2.extensions, a.2.xmlLine⟩ : Block))), acc.2)
    rw [ih (acc.1 ++ [(⟨ad.1, k, ad.2.feature, ad.2.extensions, ad.2.xmlLine⟩ : Block)],
        acc.2 ++ ([] : List String))
      (fun a ha => hsub a (List.mem_cons_of_mem _ ha))]
    simp

/-- C10 (amended): when `appendCommand` emits an overload block for a command
with a non-empty alias table, it re-runs the whole selection once per alias
under the alias name with a cleared alias table (so the recursion is exactly
one level deep) and with the alias entry supplying the feature, extension set
and xml line; PROVIDED every alias name agrees with the primary name on the
`beginsWith(name, "vkGet")` test of line 1160, the alias re-run selects the
same shape and one block per alias is emitted exactly as the claim says.  The
proviso is necessary: the selector consults the command NAME, so an alias
that changes the `vkGet` prefix status may select nothing (see the
counterexample) instead of duplicating the primary block. -/
theorem claim_C10 (g : Generator) (nm : String) (cd : CommandData) (k : ShapeKind)
    (hcore : appendCommandCore g nm cd = .ok (some k))
    (hget : ∀ ad ∈ cd.aliasData, beginsWith ad.1 "vkGet" = beginsWith nm "vkGet") :
    appendCommand g nm cd =
      .ok (⟨nm, k, cd.feature, cd.extensions, cd.xmlLine⟩ ::
        cd.aliasData.map (fun ad =>
          (⟨ad.1, k, ad.2.feature, ad.2.extensions, ad.2.xmlLine⟩ : Block)), []) := by
  have hcs : coreShape g (beginsWith nm "vkGet") cd.params cd.returnType = .ok (some k) := by
    rw [appendCommandCore] at hcore
    exact (mapError_ok_iff _ _ _).mp hcore
  have hsub : ∀ ad ∈ cd.aliasData,
      appendCommandAux g 1 ad.1
        { cd with aliasData := [], extensions := ad.2.extensions,
                  feature := ad.2.feature, xmlLine := ad.2.xmlLine } =
        .ok ([⟨ad.1, k, ad.2.feature, ad.2.extensions, ad.2.xmlLine⟩], []) := by
    intro ad had
    have hcore2 : appendCommandCore g ad.1
        { cd with aliasData := [], extensions := ad.2.extensions,
                  feature := ad.2.feature, xmlLine := ad.2.xmlLine } = .ok (some k) := by
      rw [appendCommandCore]
      rw [hget ad had]
      exact (mapError_ok_iff _ _ _).mpr hcs
    rw [appendCommandAux, hcore2]
    rfl
  have hred : appendCommand g nm cd =
      cd.aliasData.foldlM (fun acc ad => do
          let sub ← appendCommandAux g 1 ad.1
            { cd with aliasData := [], extensions := ad.2.extensions,
                      feature := ad.2.feature, xmlLine := ad.2.xmlLine }
          pure (acc.1 ++ sub.1, acc.2 ++ sub.2))
        ([⟨nm, k, cd.feature, cd.extensions, cd.xmlLine⟩], []) := by
    rw [appendCommand, appendCommandAux, hcore]
  rw [hred, aliasFold_ok g cd k cd.aliasData
    ([(⟨nm, k, cd.feature, cd.extensions, cd.xmlLine⟩ : Block)], ([] : List String)) hsub]
  simp

/- C10 counterexample: a `void` handle-returning getter whose alias does not
keep the `vkGet` prefix.  The primary run emits the standard-and-enhanced
block, the alias re-run selects no shape: the alias contributes a log line
instead of the duplicated block the claim promises. -/
theorem claim_C10_counterexample :
    appendCommand { handles := [("VkThing", "")] } "vkGetThing"
        { returnType := "void",
          params := [{ type := ⟨"", "VkDevice", ""⟩, name := "device" },
                     { type := ⟨"", "VkThing", "*"⟩, name := "pThing" }],
          aliasData := [("vkAcquireThing",
            { feature := "fa", extensions := ["ea"], xmlLine := 9 })] } =
      .ok ([⟨"vkGetThing", .standardAndEnhanced, "", [], 0⟩],
           ["Never encountered a function like vkAcquireThing !"])
    ∧ appendCommand { handles := [("VkThing", "")] } "vkGetThing"
        { returnType := "void",
          params := [{ type := ⟨"", "VkDevice", ""⟩, name := "device" },
                     { type := ⟨"", "VkThing", "*"⟩, name := "pThing" }],
          aliasData := [("vkAcquireThing",
            { feature := "fa", extensions := ["ea"], xmlLine := 9 })] } ≠
      .ok ([⟨"vkGetThing", .standardAndEnhanced, "", [], 0⟩,
            ⟨"vkAcquireThing", .standardAndEnhanced, "fa", ["ea"], 9⟩], []) := by
  refine ⟨by decide, by decide⟩

theorem claim_C10_witness :
    appendCommand { handles := [("VkThing", "")] } "vkGetFoo"
        { returnType := "void",
          params := [{ type := ⟨"", "VkDevice", ""⟩, name := "device" },
                     { type := ⟨"", "VkThing", "*"⟩, name := "pFoo" }],
          aliasData := [("vkGetFooKHR",
            { feature := "VK_VERSION_1_1", extensions := ["VK_KHR_x"], xmlLine := 7 })] } =
      .ok ([⟨"vkGetFoo", .standardAndEnhanced, "", [], 0⟩,
            ⟨"vkGetFooKHR", .standardAndEnhanced, "VK_VERSION_1_1", ["VK_KHR_x"], 7⟩], []) := by
  have h := claim_C10 { handles := [("VkThing", "")] } "vkGetFoo"
      { returnType := "void",
        params := [{ type := ⟨"", "VkDevice", ""⟩, name := "device" },
                   { type := ⟨"", "VkThing", "*"⟩, name := "pFoo" }],
        aliasData := [("vkGetFooKHR",
          { feature := "VK_VERSION_1_1", extensions := ["VK_KHR_x"], xmlLine := 7 })] }
      .standardAndEnhanced (by decide) (by decide)
  simpa using h

end VkGen
